import Mathlib

/-!
Verification of the enemy-AI / perception core of the mollieroswell game.

The definitions below are shallow embeddings of the TypeScript sources:
the Enemy finite-state controller (Enemy.ts), the Axol helper controller
(Axol.ts, both the simple and the LOS-aware variant) and the GameScene
target-selection closure.  Geometry that only uses field arithmetic and
comparisons (the Liang-Barsky clip, line-of-sight, AABB overlap) is kept
polymorphic over a linear ordered field so it is computable at rational
inputs; the trigonometric parts (facing angles, vision cone, steering)
are embedded over the reals, with atan2 modelled by the complex argument.
-/

namespace MollieRoswell

/-- Axis-aligned obstacle rectangle, as in the Rect interface of
src/constants.ts: top-left corner (x, y), width w, height h. -/
structure Rect (α : Type) where
  x : α
  y : α
  w : α
  h : α

section Geometry

variable {α : Type} [LinearOrderedField α]

/-- Loop body of Axol.segmentIntersectsAABB: fold the four Liang-Barsky
clip checks over the running parameter interval; None models the early
`return false`. -/
def clipSteps : List (α × α) → Option (α × α) → Option (α × α)
  | [], st => st
  | (p, q) :: rest, st =>
    match st with
    | none => none
    | some (t0, t1) =>
      if p = 0 then
        if q < 0 then none else clipSteps rest (some (t0, t1))
      else
        let t := q / p
        let t0' := if p < 0 then max t0 t else t0
        let t1' := if p < 0 then t1 else min t1 t
        if t0' > t1' then none else clipSteps rest (some (t0', t1'))

/-- Axol.segmentIntersectsAABB (Axol.ts lines 527-545): Liang-Barsky
parametric test of the segment (x1,y1)-(x2,y2) against the axis-aligned
box [minX, maxX] x [minY, maxY]. -/
def segmentIntersectsAABB (x1 y1 x2 y2 minX minY maxX maxY : α) : Bool :=
  let dx := x2 - x1
  let dy := y2 - y1
  (clipSteps [(-dx, x1 - minX), (dx, maxX - x1), (-dy, y1 - minY), (dy, maxY - y1)]
    (some ((0 : α), (1 : α)))).isSome

/-- Axol.hasLOS (Axol.ts lines 514-524): the segment from (ax, ay) to
(tx, ty) clips no obstacle rectangle inflated by 4 px on each side.  The
loop returns false at the first obstacle hit. -/
def hasLOS : List (Rect α) → α → α → α → α → Bool
  | [], _, _, _, _ => true
  | r :: rest, ax, ay, tx, ty =>
    if segmentIntersectsAABB ax ay tx ty (r.x - 4) (r.y - 4) (r.x + r.w + 4) (r.y + r.h + 4)
    then false
    else hasLOS rest ax ay tx ty

/-- Membership of a point in a closed axis-aligned box. -/
def inClosedBox (px py minX minY maxX maxY : α) : Prop :=
  minX ≤ px ∧ px ≤ maxX ∧ minY ≤ py ∧ py ≤ maxY

instance (px py minX minY maxX maxY : α) :
    Decidable (inClosedBox px py minX minY maxX maxY) := by
  unfold inClosedBox
  infer_instance

end Geometry

/-! Real-valued layer: trigonometric helpers shared by the Enemy and
Axol embeddings. -/

/-- JavaScript Math.atan2(y, x), modelled by the argument of the complex
number x + y i; its value lies in (-pi, pi]. -/
noncomputable def atan2 (y x : ℝ) : ℝ := Complex.arg ⟨x, y⟩

/-- JavaScript Math.hypot(a, b). -/
noncomputable def hypot (a b : ℝ) : ℝ := Real.sqrt (a * a + b * b)

/-- Phaser.Math.DegToRad. -/
noncomputable def degToRad (deg : ℝ) : ℝ := deg * (Real.pi / 180)

/-! Enemy (Roswell) finite-state controller, from src/entities/Enemy.ts.
Tunable constants are the ones imported from src/constants.ts together
with the private speeds of the Enemy class. -/

def VISION_RANGE : ℝ := 250
def VISION_HALF_ANGLE_DEG : ℝ := 35
def POOP_STUN_DURATION_MS : ℝ := 2000
def SEARCH_DURATION_MS : ℝ := 3000
def LOS_LOST_TIMEOUT_MS : ℝ := 3000
def WAYPOINT_ARRIVE_DIST : ℝ := 20
def ENEMY_STUNNED_SPEED : ℝ := 48
def ROSWELL_CHASE_SPEED : ℝ := 140
def enemyPatrolSpeed : ℝ := 110

inductive EnemyState
  | PATROL
  | CHASE
  | SEARCH
  | STUNNED
deriving DecidableEq

open EnemyState

/-- State of an Enemy instance: the mutable private fields of the class
together with the sprite's position and velocity.  Position is written
only by the physics engine between ticks; the controller writes
velocity. -/
structure Enemy where
  state : EnemyState
  waypointIndex : ℕ
  x : ℝ
  y : ℝ
  vx : ℝ
  vy : ℝ
  facingAngle : ℝ
  lastSeenX : ℝ
  lastSeenY : ℝ
  losTimer : ℝ
  searchTimer : ℝ
  stunTimer : ℝ
  lastX : ℝ
  lastY : ℝ
  stuckTimer : ℝ
  blockedCooldown : ℝ
  obstacles : List (Rect ℝ)
  waypoints : List (ℝ × ℝ)

/-- Per-tick inputs to Enemy.update that come from outside the
controller: the physics body's blocked flags, and the sample drawn by
Math.random() inside unstick. -/
structure EnemyTickInput where
  blockedLeft : Bool
  blockedRight : Bool
  blockedUp : Bool
  blockedDown : Bool
  rand : ℝ

/-- Enemy.stun: called externally; unconditionally forces STUNNED and
starts the fixed stun timer. -/
def Enemy.stun (e : Enemy) : Enemy :=
  { e with state := STUNNED, stunTimer := POOP_STUN_DURATION_MS }

open Classical in
/-- Enemy.moveToward: set velocity toward (tx, ty) at the given speed and
record the facing angle; below 1 px of distance, zero the velocity and
leave the facing unchanged. -/
noncomputable def Enemy.moveToward (e : Enemy) (tx ty speed : ℝ) : Enemy :=
  let dx := tx - e.x
  let dy := ty - e.y
  let dist := Real.sqrt (dx * dx + dy * dy)
  if dist < 1 then { e with vx := 0, vy := 0 }
  else { e with vx := dx / dist * speed, vy := dy / dist * speed, facingAngle := atan2 dy dx }

/-- Enemy.isRayBlocked: the loop over the obstacle list, returning true at
the first rectangle the ray hits.  The per-rectangle test is performed by
Phaser.Geom.Intersects.GetLineToRectangle, an external library routine,
so it is abstracted here as the parameter hits. -/
def Enemy.isRayBlocked (hits : ℝ → ℝ → ℝ → ℝ → Rect ℝ → Bool)
    (x1 y1 x2 y2 : ℝ) : List (Rect ℝ) → Bool
  | [] => false
  | r :: rest =>
    if hits x1 y1 x2 y2 r then true else Enemy.isRayBlocked hits x1 y1 x2 y2 rest

open Classical in
/-- Enemy.canSeePlayer: the three perception tests in source order — the
squared-distance test, then the cone test on the angle difference
normalised through atan2(sin, cos), then the ray-vs-obstacles test — each
returning false immediately on failure. -/
noncomputable def Enemy.canSeePlayer (hits : ℝ → ℝ → ℝ → ℝ → Rect ℝ → Bool)
    (e : Enemy) (px py : ℝ) : Bool :=
  let dx := px - e.x
  let dy := py - e.y
  let distSq := dx * dx + dy * dy
  if distSq > VISION_RANGE * VISION_RANGE then false
  else
    let angleToPlayer := atan2 dy dx
    let diff := atan2 (Real.sin (angleToPlayer - e.facingAngle))
      (Real.cos (angleToPlayer - e.facingAngle))
    if |diff| > degToRad VISION_HALF_ANGLE_DEG then false
    else !(Enemy.isRayBlocked hits e.x e.y px py e.obstacles)

open Classical in
/-- Enemy.updatePatrol: with no waypoints, return immediately; otherwise
advance the waypoint cursor cyclically on arrival (within 20 px), else
walk toward the current waypoint at patrol speed. -/
noncomputable def Enemy.updatePatrol (e : Enemy) : Enemy :=
  match e.waypoints with
  | [] => e
  | _ :: _ =>
    let wp := e.waypoints.getD e.waypointIndex (0, 0)
    let dx := wp.1 - e.x
    let dy := wp.2 - e.y
    let dist := Real.sqrt (dx * dx + dy * dy)
    if dist < WAYPOINT_ARRIVE_DIST then
      { e with waypointIndex := (e.waypointIndex + 1) % e.waypoints.length }
    else e.moveToward wp.1 wp.2 enemyPatrolSpeed

open Classical in
/-- Enemy.updateSearch: walk toward the last-seen position while farther
than 20 px from it; once arrived, idle (zero velocity) and run the search
countdown down, dropping to PATROL when it expires. -/
noncomputable def Enemy.updateSearch (e : Enemy) (delta : ℝ) : Enemy :=
  let dx := e.lastSeenX - e.x
  let dy := e.lastSeenY - e.y
  let dist := Real.sqrt (dx * dx + dy * dy)
  if dist > WAYPOINT_ARRIVE_DIST then
    e.moveToward e.lastSeenX e.lastSeenY enemyPatrolSpeed
  else
    let e1 : Enemy := { e with vx := 0, vy := 0, searchTimer := e.searchTimer - delta }
    if e1.searchTimer ≤ 0 then { e1 with state := PATROL } else e1

open Classical in
/-- Enemy.unstick: in PATROL with a nonempty waypoint list, skip to the
next waypoint; otherwise nudge in a random direction around the current
facing at the state's speed. -/
noncomputable def Enemy.unstick (e : Enemy) (rand : ℝ) : Enemy :=
  if e.state = PATROL ∧ e.waypoints ≠ [] then
    { e with waypointIndex := (e.waypointIndex + 1) % e.waypoints.length }
  else
    let angle := e.facingAngle + (rand - 0.5) * Real.pi
    let spd := if e.state = CHASE then ROSWELL_CHASE_SPEED else enemyPatrolSpeed
    { e with vx := Real.cos angle * spd, vy := Real.sin angle * spd }

open Classical in
/-- Enemy.updateStuck: the periodic displacement snapshot (every 500 ms,
unstick if less than 2 px moved) followed by the rate-limited immediate
response to a blocked physics body. -/
noncomputable def Enemy.updateStuck (e : Enemy) (delta : ℝ) (inp : EnemyTickInput) : Enemy :=
  let e1 : Enemy := { e with stuckTimer := e.stuckTimer + delta }
  let e2 : Enemy :=
    if e1.stuckTimer ≥ 500 then
      let moved := hypot (e1.x - e1.lastX) (e1.y - e1.lastY)
      let e1b : Enemy := if moved < 2 then e1.unstick inp.rand else e1
      { e1b with lastX := e1b.x, lastY := e1b.y, stuckTimer := 0 }
    else e1
  let e3 : Enemy := { e2 with blockedCooldown := max 0 (e2.blockedCooldown - delta) }
  if e3.blockedCooldown = 0 ∧
      (inp.blockedLeft = true ∨ inp.blockedRight = true ∨
        inp.blockedUp = true ∨ inp.blockedDown = true) ∧
      (|e3.vx| > 10 ∨ |e3.vy| > 10) then
    { (e3.unstick inp.rand) with blockedCooldown := 350 }
  else e3

open Classical in
/-- Vision block of Enemy.update (lines 92-105): re-evaluate perception;
on sight enter or refresh CHASE with the last-seen position and a reset
loss timer; otherwise, while in CHASE, accumulate the loss timer and drop
to SEARCH with a fresh search countdown when it reaches the timeout. -/
noncomputable def Enemy.sense (hits : ℝ → ℝ → ℝ → ℝ → Rect ℝ → Bool)
    (e : Enemy) (delta px py : ℝ) : Enemy :=
  if Enemy.canSeePlayer hits e px py = true then
    { e with state := CHASE, lastSeenX := px, lastSeenY := py, losTimer := 0 }
  else if e.state = CHASE then
    let lt := e.losTimer + delta
    if lt ≥ LOS_LOST_TIMEOUT_MS then
      { e with state := SEARCH, searchTimer := SEARCH_DURATION_MS, losTimer := 0 }
    else { e with losTimer := lt }
  else e

/-- State switch of Enemy.update (lines 107-117). -/
noncomputable def Enemy.act (e : Enemy) (delta px py : ℝ) : Enemy :=
  match e.state with
  | PATROL => e.updatePatrol
  | CHASE => e.moveToward px py ROSWELL_CHASE_SPEED
  | SEARCH => e.updateSearch delta
  | STUNNED => e

open Classical in
/-- STUNNED branch of Enemy.update (lines 78-89): run the stun timer
down, dropping to PATROL on expiry, and shamble toward the current
patrol waypoint (or the enemy's own position when the waypoint list has
no such entry) at the stunned speed; vision is never evaluated. -/
noncomputable def Enemy.stunnedStep (e : Enemy) (delta : ℝ) : Enemy :=
  let e1 : Enemy := { e with stunTimer := e.stunTimer - delta }
  let e2 : Enemy := if e1.stunTimer ≤ 0 then { e1 with state := PATROL } else e1
  let wp := e2.waypoints.getD e2.waypointIndex (e2.x, e2.y)
  e2.moveToward wp.1 wp.2 ENEMY_STUNNED_SPEED

open Classical in
/-- Enemy.update: the full per-tick entry point.  STUNNED overrides
everything and returns early; otherwise the vision block runs, then the
state switch, then stuck detection. -/
noncomputable def Enemy.update (hits : ℝ → ℝ → ℝ → ℝ → Rect ℝ → Bool)
    (e : Enemy) (delta px py : ℝ) (inp : EnemyTickInput) : Enemy :=
  if e.state = STUNNED then e.stunnedStep delta
  else ((Enemy.sense hits e delta px py).act delta px py).updateStuck delta inp

/-! Axol helper controller, from src/entities/Axol.ts.  The file holds
two revisions of the class: the simple greedy variant (speed 230) and the
LOS-aware variant (speed Math.round(1.01 * ROSWELL_CHASE_SPEED) = 141);
both are embedded over one state record, the speed kept as the per-
instance readonly field it is in the source. -/

/-- Active collectible (treat) as seen by the helper each tick: position
plus the Phaser active flag, which the orchestration layer clears when
the treat is collected or destroyed. -/
structure Treat where
  x : ℝ
  y : ℝ
  active : Bool

/-- Default used to resolve a treat reference through its index; an
out-of-range index behaves like a destroyed (inactive) treat. -/
def defaultTreat : Treat := { x := 0, y := 0, active := false }

/-- Resolution of the held target reference against the per-tick treat
list. -/
def treatAt (treats : List Treat) (i : ℕ) : Treat := treats.getD i defaultTreat

/-- State of an Axol instance: the mutable private fields of the class
plus the sprite position/velocity, the body half-extent (the body is
centred on the sprite) and the world bounds used by isSafePosition. -/
structure Axol where
  alive : Bool
  speed : ℝ
  x : ℝ
  y : ℝ
  vx : ℝ
  vy : ℝ
  facingRight : Bool
  currentTarget : Option ℕ
  obstacles : List (Rect ℝ)
  lastSafeX : ℝ
  lastSafeY : ℝ
  lastX : ℝ
  lastY : ℝ
  stuckTimer : ℝ
  blockedCooldown : ℝ
  detourPoint : Option (ℝ × ℝ)
  detourTimer : ℝ
  detourDir : ℝ
  halfW : ℝ
  halfH : ℝ
  worldBounds : Rect ℝ

/-- Per-tick inputs to Axol.update from outside the controller: blocked
flags of the physics body and the Math.random() samples drawn by the
periodic stuck check and by nudgeAwayFromWall. -/
structure AxolTickInput where
  blockedLeft : Bool
  blockedRight : Bool
  blockedUp : Bool
  blockedDown : Bool
  randPeriodic : ℝ
  randNudge : ℝ

open Classical in
/-- Axol.steerToward: set velocity toward (tx, ty) rotated by the angle
offset, at the instance speed; update facingRight from the cosine of the
offset-inclusive angle; below 1 px of distance, zero the velocity and
leave facingRight unchanged. -/
noncomputable def Axol.steerToward (a : Axol) (tx ty angleOffset : ℝ) : Axol :=
  let dx := tx - a.x
  let dy := ty - a.y
  let dist := Real.sqrt (dx * dx + dy * dy)
  if dist < 1 then { a with vx := 0, vy := 0 }
  else
    let angle := atan2 dy dx + angleOffset
    { a with vx := Real.cos angle * a.speed, vy := Real.sin angle * a.speed,
             facingRight := if Real.cos angle ≥ 0 then true else false }

open Classical in
/-- Loop of Axol.findNearest: scan the treats in order, keeping the index
and squared distance of the best strictly-closer active treat so far;
none models the Infinity initialisation. -/
noncomputable def Axol.findNearestAux (ax ay : ℝ) :
    List Treat → ℕ → Option (ℕ × ℝ) → Option (ℕ × ℝ)
  | [], _, best => best
  | t :: ts, i, best =>
    if t.active = true then
      let dSq := (t.x - ax) * (t.x - ax) + (t.y - ay) * (t.y - ay)
      let best' : Option (ℕ × ℝ) :=
        match best with
        | none => some (i, dSq)
        | some (j, bd) => if dSq < bd then some (i, dSq) else some (j, bd)
      Axol.findNearestAux ax ay ts (i + 1) best'
    else Axol.findNearestAux ax ay ts (i + 1) best

/-- Axol.findNearest: index of the nearest active treat by squared
distance (first wins ties), or none when no treat is active. -/
noncomputable def Axol.findNearest (a : Axol) (treats : List Treat) : Option ℕ :=
  (Axol.findNearestAux a.x a.y treats 0 none).map Prod.fst

open Classical in
/-- Loop of Axol.findNearestWithLOS: like findNearest but a treat is a
candidate only when the helper also has line of sight to it. -/
noncomputable def Axol.findNearestWithLOSAux (obstacles : List (Rect ℝ)) (ax ay : ℝ) :
    List Treat → ℕ → Option (ℕ × ℝ) → Option (ℕ × ℝ)
  | [], _, best => best
  | t :: ts, i, best =>
    if t.active = true ∧ hasLOS obstacles ax ay t.x t.y = true then
      let dSq := (t.x - ax) * (t.x - ax) + (t.y - ay) * (t.y - ay)
      let best' : Option (ℕ × ℝ) :=
        match best with
        | none => some (i, dSq)
        | some (j, bd) => if dSq < bd then some (i, dSq) else some (j, bd)
      Axol.findNearestWithLOSAux obstacles ax ay ts (i + 1) best'
    else Axol.findNearestWithLOSAux obstacles ax ay ts (i + 1) best

/-- Axol.findNearestWithLOS: nearest active treat with a clear line of
sight, or none. -/
noncomputable def Axol.findNearestWithLOS (a : Axol) (treats : List Treat) : Option ℕ :=
  (Axol.findNearestWithLOSAux a.obstacles a.x a.y treats 0 none).map Prod.fst

open Classical in
/-- Overlap test of the helper's axis-aligned body (top-left (bx, by0),
size bw x bh) against the obstacle list, returning true at the first
overlap, as in the loops of Axol.isEmbedded / Axol.isSafePosition. -/
noncomputable def bodyOverlaps (bx by0 bw bh : ℝ) : List (Rect ℝ) → Bool
  | [] => false
  | r :: rest =>
    if bx < r.x + r.w ∧ bx + bw > r.x ∧ by0 < r.y + r.h ∧ by0 + bh > r.y then true
    else bodyOverlaps bx by0 bw bh rest

/-- Axol.isEmbedded: the helper's physics body overlaps some obstacle. -/
noncomputable def Axol.isEmbedded (a : Axol) : Bool :=
  bodyOverlaps (a.x - a.halfW) (a.y - a.halfH) (a.halfW * 2) (a.halfH * 2) a.obstacles

open Classical in
/-- Axol.isSafePosition: placing the body centre at (cx, cy) keeps the
body inside world bounds and clear of every obstacle. -/
noncomputable def Axol.isSafePosition (a : Axol) (cx cy : ℝ) : Bool :=
  let bx := cx - a.halfW
  let by0 := cy - a.halfH
  let bw := a.halfW * 2
  let bh := a.halfH * 2
  let wb := a.worldBounds
  if bx < wb.x ∨ bx + bw > wb.x + wb.w ∨ by0 < wb.y ∨ by0 + bh > wb.y + wb.h then false
  else !(bodyOverlaps bx by0 bw bh a.obstacles)

open Classical in
/-- Axol.snapToSafePosition: zero the velocity, snap back to the last
safe position when still valid, else spiral outward (16 px radial steps
up to 300 px, 16 angles per ring) to the first safe placement. -/
noncomputable def Axol.snapToSafePosition (a : Axol) : Axol :=
  let a0 : Axol := { a with vx := 0, vy := 0 }
  if a0.isSafePosition a0.lastSafeX a0.lastSafeY = true then
    { a0 with x := a0.lastSafeX, y := a0.lastSafeY }
  else
    let candidates : List (ℝ × ℝ) :=
      (List.range 18).flatMap fun k =>
        (List.range 16).map fun i =>
          let angle := ((i : ℝ) / 16) * (2 * Real.pi)
          let r := (16 : ℝ) * ((k : ℝ) + 1)
          (a0.x + Real.cos angle * r, a0.y + Real.sin angle * r)
    match candidates.find? (fun c => a0.isSafePosition c.1 c.2) with
    | some c => { a0 with x := c.1, y := c.2, lastSafeX := c.1, lastSafeY := c.2 }
    | none => a0

open Classical in
/-- Embedded check at the top of Axol.update: correct an embedded body
before any movement logic, otherwise record the current position as the
last safe one. -/
noncomputable def Axol.embedPhase (a : Axol) : Axol :=
  if a.obstacles ≠ [] ∧ a.isEmbedded = true then a.snapToSafePosition
  else { a with lastSafeX := a.x, lastSafeY := a.y }

open Classical in
/-- Target-invalidation step of Axol.update (LOS-aware variant, lines
362-366): drop the held target the tick its treat is no longer active,
clearing any detour state. -/
noncomputable def Axol.dropPhase (a : Axol) (treats : List Treat) : Axol :=
  match a.currentTarget with
  | some i =>
    if (treatAt treats i).active = false then
      { a with currentTarget := none, detourPoint := none, detourTimer := 0 }
    else a
  | none => a

/-- Target-selection step of Axol.update (LOS-aware variant, lines
369-373): with no held target, pick the nearest active treat and clear
any detour state. -/
noncomputable def Axol.selectPhase (a : Axol) (treats : List Treat) : Axol :=
  match a.currentTarget with
  | none => { a with currentTarget := a.findNearest treats, detourPoint := none, detourTimer := 0 }
  | some _ => a

open Classical in
/-- Axol.computeDetourPoint: perpendicular side-step point 110 px off the
line to the held target, preferring the sticky side (detourDir) and
switching sides only when the preferred placement is not collision-free;
when both sides are blocked, push 160 px straight out. -/
noncomputable def Axol.computeDetourPoint (a : Axol) (treats : List Treat) : Axol :=
  match a.currentTarget with
  | none => { a with detourPoint := none }
  | some i =>
    let t := treatAt treats i
    let dx := t.x - a.x
    let dy := t.y - a.y
    let len := Real.sqrt (dx * dx + dy * dy)
    if len < 1 then { a with detourPoint := none }
    else
      let px := -dy / len
      let py := dx / len
      let c1 : ℝ × ℝ := (a.x + px * 110, a.y + py * 110)
      let c2 : ℝ × ℝ := (a.x - px * 110, a.y - py * 110)
      let ok1 := a.isSafePosition c1.1 c1.2
      let ok2 := a.isSafePosition c2.1 c2.2
      if a.detourDir = 1 ∧ ok1 = true then { a with detourPoint := some c1 }
      else if ok2 = true then { a with detourDir := -1, detourPoint := some c2 }
      else if ok1 = true then { a with detourDir := 1, detourPoint := some c1 }
      else { a with detourPoint := some (a.x + px * 160, a.y + py * 160) }

open Classical in
/-- Axol.updateDetour: advance the detour timer; recompute the detour
point only when it is missing, reached (within 24 px) or stale (timer
over 700 ms); then steer toward it. -/
noncomputable def Axol.updateDetour (a : Axol) (treats : List Treat) (delta : ℝ) : Axol :=
  let a1 : Axol := { a with detourTimer := a.detourTimer + delta }
  let arrived : Prop :=
    match a1.detourPoint with
    | none => False
    | some p => hypot (a1.x - p.1) (a1.y - p.2) < 24
  let a2 : Axol :=
    if a1.detourPoint = none ∨ arrived ∨ a1.detourTimer > 700 then
      { (a1.computeDetourPoint treats) with detourTimer := 0 }
    else a1
  match a2.detourPoint with
  | some p => a2.steerToward p.1 p.2 0
  | none => a2

open Classical in
/-- Axol.nudgeAwayFromWall: push the body 3 px off each blocked side
(zeroing velocity via body.reset), then re-steer toward the held target
with a random offset within 30 degrees. -/
noncomputable def Axol.nudgeAwayFromWall (a : Axol) (treats : List Treat)
    (inp : AxolTickInput) : Axol :=
  let nx := a.x + (if inp.blockedLeft = true then (3 : ℝ) else 0)
    - (if inp.blockedRight = true then (3 : ℝ) else 0)
  let ny := a.y + (if inp.blockedUp = true then (3 : ℝ) else 0)
    - (if inp.blockedDown = true then (3 : ℝ) else 0)
  let a1 : Axol := { a with x := nx, y := ny, vx := 0, vy := 0 }
  match a1.currentTarget with
  | some i =>
    let t := treatAt treats i
    a1.steerToward t.x t.y ((inp.randNudge - 0.5) * (Real.pi / 3))
  | none => a1

open Classical in
/-- Axol.updateStuck: periodic displacement snapshot (every 450 ms,
re-steer with a random offset if less than 2 px moved while holding a
target), then the rate-limited immediate wall-collision response. -/
noncomputable def Axol.updateStuck (a : Axol) (treats : List Treat) (delta : ℝ)
    (inp : AxolTickInput) : Axol :=
  let a1 : Axol := { a with stuckTimer := a.stuckTimer + delta }
  let a2 : Axol :=
    if a1.stuckTimer ≥ 450 then
      let moved := hypot (a1.x - a1.lastX) (a1.y - a1.lastY)
      let a1b : Axol :=
        if moved < 2 then
          match a1.currentTarget with
          | some i =>
            let t := treatAt treats i
            a1.steerToward t.x t.y ((inp.randPeriodic - 0.5) * (Real.pi / 3))
          | none => a1
        else a1
      { a1b with lastX := a1b.x, lastY := a1b.y, stuckTimer := 0 }
    else a1
  let a3 : Axol := { a2 with blockedCooldown := max 0 (a2.blockedCooldown - delta) }
  if a3.blockedCooldown = 0 ∧
      (inp.blockedLeft = true ∨ inp.blockedRight = true ∨
        inp.blockedUp = true ∨ inp.blockedDown = true) ∧
      (|a3.vx| > 10 ∨ |a3.vy| > 10) then
    { (a3.nudgeAwayFromWall treats inp) with blockedCooldown := 300 }
  else a3

open Classical in
/-- Axol.update, LOS-aware variant (Axol.ts lines 350-401): embedded
check, target invalidation, target selection, halt when no target, then
LOS-aware steering (direct / alternative-with-LOS / detour), stuck
detection. -/
noncomputable def Axol.update (a : Axol) (delta : ℝ) (treats : List Treat)
    (inp : AxolTickInput) : Axol :=
  if a.alive = false then a
  else
    let a1 : Axol := a.embedPhase
    let a2 : Axol := (a1.dropPhase treats).selectPhase treats
    match a2.currentTarget with
    | none => { a2 with vx := 0, vy := 0 }
    | some i =>
      let t := treatAt treats i
      let a3 : Axol :=
        if hasLOS a2.obstacles a2.x a2.y t.x t.y = true then
          ({ a2 with detourPoint := none, detourTimer := 0 } : Axol).steerToward t.x t.y 0
        else
          match a2.findNearestWithLOS treats with
          | some j =>
            let tj := treatAt treats j
            ({ a2 with detourPoint := none, detourTimer := 0 } : Axol).steerToward tj.x tj.y 0
          | none => a2.updateDetour treats delta
      a3.updateStuck treats delta inp

open Classical in
/-- Axol.update, simple variant (Axol.ts lines 60-90): embedded check,
target invalidation, nearest-target selection, halt when no target,
direct steering, stuck detection. -/
noncomputable def Axol.simpleUpdate (a : Axol) (delta : ℝ) (treats : List Treat)
    (inp : AxolTickInput) : Axol :=
  if a.alive = false then a
  else
    let a1 : Axol := a.embedPhase
    let a2 : Axol :=
      match a1.currentTarget with
      | some i =>
        if (treatAt treats i).active = false then { a1 with currentTarget := none } else a1
      | none => a1
    let a3 : Axol :=
      match a2.currentTarget with
      | none => { a2 with currentTarget := a2.findNearest treats }
      | some _ => a2
    match a3.currentTarget with
    | none => { a3 with vx := 0, vy := 0 }
    | some i =>
      let t := treatAt treats i
      (a3.steerToward t.x t.y 0).updateStuck treats delta inp

open Classical in
/-- Target-selection closure getTarget of GameScene.update (lines
411-420): an enemy at (ex, ey) is told to chase the helper whenever the
helper is alive and within plain Euclidean distance VISION_RANGE
(strictly), regardless of facing, cone or obstacles; otherwise it is told
to chase the player. -/
noncomputable def getTarget (axolAlive : Bool) (axolX axolY playerX playerY ex ey : ℝ) :
    ℝ × ℝ :=
  if axolAlive = true ∧ hypot (axolX - ex) (axolY - ey) < VISION_RANGE then (axolX, axolY)
  else (playerX, playerY)

/-! Concrete configurations used to instantiate theorems. -/

/-- Trivial ray-rectangle test under which no ray is ever blocked. -/
def noHits : ℝ → ℝ → ℝ → ℝ → Rect ℝ → Bool := fun _ _ _ _ _ => false

/-- Tick input with no blocked sides and the random sample 0.5 (which
makes the unstick nudge angle coincide with the current facing). -/
def quietInput : EnemyTickInput := ⟨false, false, false, false, 0.5⟩

/-- Enemy at the origin in PATROL with empty waypoint and obstacle lists
and all timers zero. -/
def baseEnemy : Enemy :=
  { state := EnemyState.PATROL, waypointIndex := 0, x := 0, y := 0, vx := 0, vy := 0,
    facingAngle := 0, lastSeenX := 0, lastSeenY := 0, losTimer := 0, searchTimer := 0,
    stunTimer := 0, lastX := 0, lastY := 0, stuckTimer := 0, blockedCooldown := 0,
    obstacles := [], waypoints := [] }

/-- Helper at the origin, alive, with no obstacles, no held target, the
simple variant's speed and a large world. -/
def baseAxol : Axol :=
  { alive := true, speed := 230, x := 0, y := 0, vx := 0, vy := 0, facingRight := true,
    currentTarget := none, obstacles := [], lastSafeX := 0, lastSafeY := 0, lastX := 0,
    lastY := 0, stuckTimer := 0, blockedCooldown := 0, detourPoint := none, detourTimer := 0,
    detourDir := 1, halfW := 10, halfH := 7,
    worldBounds := { x := -10000, y := -10000, w := 20000, h := 20000 } }

/-- Axol tick input with no blocked sides and both random samples 0.5. -/
def quietAxolInput : AxolTickInput := ⟨false, false, false, false, 0.5, 0.5⟩

/-- Enemy in CHASE at the origin with a fresh loss timer. -/
def chasingEnemy : Enemy := { baseEnemy with state := EnemyState.CHASE }

/-- Helper holding treat 0 as target, with a far-away detour point. -/
def detourAxol : Axol :=
  { baseAxol with
    detourPoint := some (1000, 1000)
    currentTarget := some 0 }

/-- Single active treat for the detour scenario. -/
def detourTreats : List Treat := [{ x := 100, y := 0, active := true }]

/-- Squared distance from the point (ax, ay) to a treat, as computed in
the findNearest loops. -/
def treatDistSq (ax ay : ℝ) (t : Treat) : ℝ :=
  (t.x - ax) * (t.x - ax) + (t.y - ay) * (t.y - ay)

/-- Enemy idling in SEARCH exactly at its last-seen position, with 100 ms
of search countdown left and two patrol waypoints. -/
def searchArrivedEnemy : Enemy :=
  { baseEnemy with
    state := EnemyState.SEARCH
    searchTimer := 100
    waypoints := [(100, 0), (200, 0)] }

section GeometryLemmas

variable {α : Type} [LinearOrderedField α]

lemma clipSteps_zero_p (q1 q2 q3 q4 : α) :
    (clipSteps [((0 : α), q1), (0, q2), (0, q3), (0, q4)] (some (0, 1))).isSome =
      (decide (0 ≤ q1) && decide (0 ≤ q2) && decide (0 ≤ q3) && decide (0 ≤ q4)) := by
  by_cases h1 : q1 < 0 <;> by_cases h2 : q2 < 0 <;> by_cases h3 : q3 < 0 <;>
    by_cases h4 : q4 < 0 <;>
    simp [clipSteps, h1, h2, h3, h4, not_lt.mp, le_of_not_lt]

/-- Degenerate (zero-length) segments intersect the box exactly when the
point lies in the closed box. -/
lemma segmentIntersectsAABB_self (px py minX minY maxX maxY : α) :
    segmentIntersectsAABB px py px py minX minY maxX maxY = true ↔
      inClosedBox px py minX minY maxX maxY := by
  unfold segmentIntersectsAABB
  simp only [sub_self, neg_zero]
  rw [clipSteps_zero_p]
  unfold inClosedBox
  constructor
  · intro h
    simp only [Bool.and_eq_true, decide_eq_true_eq] at h
    obtain ⟨⟨⟨h1, h2⟩, h3⟩, h4⟩ := h
    constructor
    · linarith
    constructor
    · linarith
    constructor
    · linarith
    · linarith
  · intro ⟨h1, h2, h3, h4⟩
    simp only [Bool.and_eq_true, decide_eq_true_eq]
    refine ⟨⟨⟨?_, ?_⟩, ?_⟩, ?_⟩ <;> linarith

end GeometryLemmas

/-! Helper lemmas about atan2. -/

lemma atan2_sin_cos {θ : ℝ} (h1 : -Real.pi < θ) (h2 : θ ≤ Real.pi) :
    atan2 (Real.sin θ) (Real.cos θ) = θ := by
  unfold atan2
  rw [Complex.mk_eq_add_mul_I, Complex.ofReal_sin, Complex.ofReal_cos]
  exact Complex.arg_cos_add_sin_mul_I ⟨h1, h2⟩

lemma atan2_mul_sin_cos {r θ : ℝ} (hr : 0 < r) (h1 : -Real.pi < θ) (h2 : θ ≤ Real.pi) :
    atan2 (r * Real.sin θ) (r * Real.cos θ) = θ := by
  unfold atan2
  have key : (⟨r * Real.cos θ, r * Real.sin θ⟩ : ℂ) =
      (r : ℂ) * (Complex.cos θ + Complex.sin θ * Complex.I) := by
    rw [Complex.mk_eq_add_mul_I, ← Complex.ofReal_cos, ← Complex.ofReal_sin]
    push_cast
    ring
  rw [key]
  exact Complex.arg_mul_cos_add_sin_mul_I hr ⟨h1, h2⟩

lemma atan2_zero_nonneg {x : ℝ} (hx : 0 ≤ x) : atan2 0 x = 0 := by
  unfold atan2
  have hmk : (⟨x, 0⟩ : ℂ) = (x : ℂ) := by
    apply Complex.ext <;> simp
  rw [hmk]
  exact Complex.arg_ofReal_of_nonneg hx

/-! Component lemmas: which Enemy fields each helper leaves unchanged. -/

@[simp] lemma Enemy.moveToward_state (e : Enemy) (tx ty sp : ℝ) :
    (e.moveToward tx ty sp).state = e.state := by
  simp only [Enemy.moveToward]
  split_ifs <;> rfl

@[simp] lemma Enemy.moveToward_waypointIndex (e : Enemy) (tx ty sp : ℝ) :
    (e.moveToward tx ty sp).waypointIndex = e.waypointIndex := by
  simp only [Enemy.moveToward]
  split_ifs <;> rfl

@[simp] lemma Enemy.moveToward_x (e : Enemy) (tx ty sp : ℝ) :
    (e.moveToward tx ty sp).x = e.x := by
  simp only [Enemy.moveToward]
  split_ifs <;> rfl

@[simp] lemma Enemy.moveToward_y (e : Enemy) (tx ty sp : ℝ) :
    (e.moveToward tx ty sp).y = e.y := by
  simp only [Enemy.moveToward]
  split_ifs <;> rfl

@[simp] lemma Enemy.moveToward_stuckTimer (e : Enemy) (tx ty sp : ℝ) :
    (e.moveToward tx ty sp).stuckTimer = e.stuckTimer := by
  simp only [Enemy.moveToward]
  split_ifs <;> rfl

@[simp] lemma Enemy.moveToward_lastX (e : Enemy) (tx ty sp : ℝ) :
    (e.moveToward tx ty sp).lastX = e.lastX := by
  simp only [Enemy.moveToward]
  split_ifs <;> rfl

@[simp] lemma Enemy.moveToward_lastY (e : Enemy) (tx ty sp : ℝ) :
    (e.moveToward tx ty sp).lastY = e.lastY := by
  simp only [Enemy.moveToward]
  split_ifs <;> rfl

@[simp] lemma Enemy.moveToward_waypoints (e : Enemy) (tx ty sp : ℝ) :
    (e.moveToward tx ty sp).waypoints = e.waypoints := by
  simp only [Enemy.moveToward]
  split_ifs <;> rfl

@[simp] lemma Enemy.updateSearch_waypointIndex (e : Enemy) (delta : ℝ) :
    (e.updateSearch delta).waypointIndex = e.waypointIndex := by
  simp only [Enemy.updateSearch]
  split_ifs <;> simp

@[simp] lemma Enemy.updateSearch_x (e : Enemy) (delta : ℝ) :
    (e.updateSearch delta).x = e.x := by
  simp only [Enemy.updateSearch]
  split_ifs <;> simp

@[simp] lemma Enemy.updateSearch_y (e : Enemy) (delta : ℝ) :
    (e.updateSearch delta).y = e.y := by
  simp only [Enemy.updateSearch]
  split_ifs <;> simp

@[simp] lemma Enemy.updateSearch_stuckTimer (e : Enemy) (delta : ℝ) :
    (e.updateSearch delta).stuckTimer = e.stuckTimer := by
  simp only [Enemy.updateSearch]
  split_ifs <;> simp

@[simp] lemma Enemy.updateSearch_lastX (e : Enemy) (delta : ℝ) :
    (e.updateSearch delta).lastX = e.lastX := by
  simp only [Enemy.updateSearch]
  split_ifs <;> simp

@[simp] lemma Enemy.updateSearch_lastY (e : Enemy) (delta : ℝ) :
    (e.updateSearch delta).lastY = e.lastY := by
  simp only [Enemy.updateSearch]
  split_ifs <;> simp

@[simp] lemma Enemy.updateSearch_waypoints (e : Enemy) (delta : ℝ) :
    (e.updateSearch delta).waypoints = e.waypoints := by
  simp only [Enemy.updateSearch]
  split_ifs <;> simp

@[simp] lemma Enemy.unstick_state (e : Enemy) (r : ℝ) :
    (e.unstick r).state = e.state := by
  simp only [Enemy.unstick]
  split_ifs <;> rfl

@[simp] lemma Enemy.unstick_x (e : Enemy) (r : ℝ) : (e.unstick r).x = e.x := by
  simp only [Enemy.unstick]
  split_ifs <;> rfl

@[simp] lemma Enemy.unstick_y (e : Enemy) (r : ℝ) : (e.unstick r).y = e.y := by
  simp only [Enemy.unstick]
  split_ifs <;> rfl

lemma Enemy.unstick_waypointIndex_of_ne (e : Enemy) (r : ℝ) (h : e.state ≠ EnemyState.PATROL) :
    (e.unstick r).waypointIndex = e.waypointIndex := by
  simp only [Enemy.unstick]
  rw [if_neg]
  intro hc
  exact h hc.1

@[simp] lemma Enemy.updateStuck_state (e : Enemy) (delta : ℝ) (inp : EnemyTickInput) :
    (e.updateStuck delta inp).state = e.state := by
  simp only [Enemy.updateStuck]
  split_ifs <;> simp

@[simp] lemma Enemy.updateStuck_x (e : Enemy) (delta : ℝ) (inp : EnemyTickInput) :
    (e.updateStuck delta inp).x = e.x := by
  simp only [Enemy.updateStuck]
  split_ifs <;> simp

@[simp] lemma Enemy.updateStuck_y (e : Enemy) (delta : ℝ) (inp : EnemyTickInput) :
    (e.updateStuck delta inp).y = e.y := by
  simp only [Enemy.updateStuck]
  split_ifs <;> simp

lemma Enemy.updateStuck_waypointIndex_of_ne (e : Enemy) (delta : ℝ) (inp : EnemyTickInput)
    (h : e.state ≠ EnemyState.PATROL) :
    (e.updateStuck delta inp).waypointIndex = e.waypointIndex := by
  simp only [Enemy.updateStuck]
  split_ifs <;>
    simp_all [Enemy.unstick_waypointIndex_of_ne]

/-- C5 counterexample: the zero-length segment at the point (10, 10),
which lies inside the 4-px-inflated bounds of the obstacle rectangle
at (0, 0) with width 20 and height 20, is reported as NOT visible by
hasLOS, contradicting the claim that a zero-length segment is trivially
visible even inside an obstacle's inflated bounds. -/
theorem hasLOS_zero_length_inside_counterexample :
    hasLOS [({ x := 0, y := 0, w := 20, h := 20 } : Rect ℚ)] 10 10 10 10 = false := by
  rw [hasLOS, if_pos]
  rw [segmentIntersectsAABB_self]
  unfold inClosedBox
  norm_num

/-- C5 amended: over any linear ordered field, the line-of-sight query on
a zero-length segment (from = to = p) returns true if and only if p lies
outside the closed 4-px-inflated bounds of every obstacle rectangle; in
particular it returns false, not true, whenever p lies inside some
obstacle's inflated bounds. -/
theorem hasLOS_zero_length_characterization {α : Type} [LinearOrderedField α]
    (obstacles : List (Rect α)) (px py : α) :
    hasLOS obstacles px py px py = true ↔
      ∀ r ∈ obstacles,
        ¬ inClosedBox px py (r.x - 4) (r.y - 4) (r.x + r.w + 4) (r.y + r.h + 4) := by
  induction obstacles with
  | nil => simp [hasLOS]
  | cons r rest ih =>
    rw [hasLOS]
    by_cases h : segmentIntersectsAABB px py px py (r.x - 4) (r.y - 4)
        (r.x + r.w + 4) (r.y + r.h + 4) = true
    · rw [if_pos h]
      rw [segmentIntersectsAABB_self] at h
      simp only [Bool.false_eq_true, false_iff, not_forall]
      exact ⟨r, List.mem_cons_self r rest, not_not_intro h⟩
    · rw [if_neg h]
      rw [ih]
      constructor
      · intro hall s hs
        rcases List.mem_cons.mp hs with hsr | hsrest
        · subst hsr
          rw [segmentIntersectsAABB_self] at h
          simpa using h
        · exact hall s hsrest
      · intro hall s hs
        exact hall s (List.mem_cons_of_mem r hs)

/-- Closed form of the stunned branch's resulting state. -/
lemma Enemy.stunnedStep_state (e : Enemy) (δ : ℝ) :
    (e.stunnedStep δ).state =
      if e.stunTimer - δ ≤ 0 then EnemyState.PATROL else e.state := by
  simp only [Enemy.stunnedStep, Enemy.moveToward_state]
  split_ifs <;> simp_all

/-- C10: each tick the orchestration layer's getTarget closure chooses a
pursuer's chase target by plain Euclidean distance alone: when the helper
is alive and its straight-line distance to the pursuer is strictly below
VISION_RANGE it returns the helper's position, regardless of facing, cone
angle or obstacles (none of which it even receives); otherwise it returns
the player's position. -/
theorem getTarget_distance_only
    (alive : Bool) (ax ay px py ex ey : ℝ)
    (halive : alive = true)
    (hnear : (ax - ex) * (ax - ex) + (ay - ey) * (ay - ey) < VISION_RANGE * VISION_RANGE)
    (alive2 : Bool) (a2x a2y p2x p2y e2x e2y : ℝ)
    (hfar : alive2 = false ∨
      VISION_RANGE * VISION_RANGE ≤ (a2x - e2x) * (a2x - e2x) + (a2y - e2y) * (a2y - e2y)) :
    getTarget alive ax ay px py ex ey = (ax, ay) ∧
    getTarget alive2 a2x a2y p2x p2y e2x e2y = (p2x, p2y) := by
  have h250 : (0 : ℝ) < VISION_RANGE := by norm_num [VISION_RANGE]
  have hsq : VISION_RANGE ^ 2 = VISION_RANGE * VISION_RANGE := by ring
  constructor
  · rw [getTarget, if_pos]
    refine ⟨halive, ?_⟩
    rw [hypot, Real.sqrt_lt' h250, hsq]
    exact hnear
  · rcases hfar with h | h
    · rw [getTarget, if_neg]
      intro hc
      rw [h] at hc
      exact Bool.false_ne_true hc.1
    · rw [getTarget, if_neg]
      intro hc
      have h2 := hc.2
      rw [hypot, Real.sqrt_lt' h250, hsq] at h2
      linarith

theorem getTarget_distance_only_witness :
    getTarget true 0 0 5 5 0 0 = (0, 0) ∧ getTarget false 0 0 5 5 0 0 = (5, 5) :=
  getTarget_distance_only true 0 0 5 5 0 0 rfl (by norm_num [VISION_RANGE])
    false 0 0 5 5 0 0 (Or.inl rfl)

/-- C8 counterexample: Axol.steerToward with angular offset pi and target
(100, 0) from the origin stores facingRight = false, although the
un-offset direction to the target has cosine 1 (facing right): the stored
facing is derived from the offset-inclusive direction, not from the
un-offset direction as claimed. -/
theorem steerToward_offset_facing_counterexample :
    (baseAxol.steerToward 100 0 Real.pi).facingRight = false ∧
    Real.cos (atan2 ((0 : ℝ) - baseAxol.y) (100 - baseAxol.x)) ≥ 0 := by
  have hx : baseAxol.x = 0 := rfl
  have hy : baseAxol.y = 0 := rfl
  have hat : atan2 ((0 : ℝ) - baseAxol.y) (100 - baseAxol.x) = 0 := by
    rw [hx, hy, sub_zero, sub_zero]
    exact atan2_zero_nonneg (by norm_num)
  have hdist : Real.sqrt ((100 - baseAxol.x) * (100 - baseAxol.x) +
      ((0 : ℝ) - baseAxol.y) * ((0 : ℝ) - baseAxol.y)) = 100 := by
    rw [hx, hy]
    rw [show ((100 : ℝ) - 0) * (100 - 0) + ((0 : ℝ) - 0) * ((0 : ℝ) - 0) = 100 ^ 2 by norm_num]
    exact Real.sqrt_sq (by norm_num)
  constructor
  · simp only [Axol.steerToward]
    rw [hdist, if_neg (by norm_num), hat, zero_add]
    simp only []
    rw [if_neg]
    rw [Real.cos_pi]
    norm_num
  · rw [hat, Real.cos_zero]
    norm_num

/-- C8 amended: below the 1 px epsilon both steering primitives zero the
velocity and leave the stored facing unchanged (the result is literally
the input agent with velocity zeroed); at or above the epsilon,
Enemy.moveToward (which takes no angular offset) stores the facing of the
direction to the target, while Axol.steerToward stores facingRight from
the offset-inclusive direction — the cosine of atan2 to the target plus
the offset — not from the un-offset direction. -/
theorem steering_primitive_spec
    (e : Enemy) (tx ty sp : ℝ)
    (he : Real.sqrt ((tx - e.x) * (tx - e.x) + (ty - e.y) * (ty - e.y)) < 1)
    (e2 : Enemy) (t2x t2y s2 : ℝ)
    (he2 : ¬ Real.sqrt ((t2x - e2.x) * (t2x - e2.x) + (t2y - e2.y) * (t2y - e2.y)) < 1)
    (a : Axol) (ux uy off : ℝ)
    (ha : Real.sqrt ((ux - a.x) * (ux - a.x) + (uy - a.y) * (uy - a.y)) < 1)
    (b : Axol) (wx wy off2 : ℝ)
    (hb : ¬ Real.sqrt ((wx - b.x) * (wx - b.x) + (wy - b.y) * (wy - b.y)) < 1) :
    e.moveToward tx ty sp = { e with vx := 0, vy := 0 } ∧
    (e2.moveToward t2x t2y s2).facingAngle = atan2 (t2y - e2.y) (t2x - e2.x) ∧
    a.steerToward ux uy off = { a with vx := 0, vy := 0 } ∧
    ((b.steerToward wx wy off2).facingRight = true ↔
      Real.cos (atan2 (wy - b.y) (wx - b.x) + off2) ≥ 0) := by
  refine ⟨?_, ?_, ?_, ?_⟩
  · simp only [Enemy.moveToward]
    rw [if_pos he]
  · simp only [Enemy.moveToward]
    rw [if_neg he2]
  · simp only [Axol.steerToward]
    rw [if_pos ha]
  · simp only [Axol.steerToward]
    rw [if_neg hb]
    simp only []
    split_ifs with h
    · simp [h]
    · simp [h]

theorem steering_primitive_spec_witness :
    baseEnemy.moveToward 0 0 110 = { baseEnemy with vx := 0, vy := 0 } ∧
    (baseEnemy.moveToward 100 0 110).facingAngle =
      atan2 ((0 : ℝ) - baseEnemy.y) (100 - baseEnemy.x) ∧
    baseAxol.steerToward 0 0 1 = { baseAxol with vx := 0, vy := 0 } ∧
    ((baseAxol.steerToward 100 0 1).facingRight = true ↔
      Real.cos (atan2 ((0 : ℝ) - baseAxol.y) (100 - baseAxol.x) + 1) ≥ 0) := by
  have h0 : Real.sqrt (((0 : ℝ) - 0) * (0 - 0) + ((0 : ℝ) - 0) * (0 - 0)) < 1 := by
    rw [show ((0 : ℝ) - 0) * (0 - 0) + ((0 : ℝ) - 0) * (0 - 0) = 0 by norm_num]
    rw [Real.sqrt_zero]
    norm_num
  have h100 : ¬ Real.sqrt ((100 - (0 : ℝ)) * (100 - 0) + ((0 : ℝ) - 0) * (0 - 0)) < 1 := by
    rw [show (100 - (0 : ℝ)) * (100 - 0) + ((0 : ℝ) - 0) * (0 - 0) = 100 ^ 2 by norm_num]
    rw [Real.sqrt_sq (by norm_num : (0 : ℝ) ≤ 100)]
    norm_num
  exact steering_primitive_spec baseEnemy 0 0 110 h0 baseEnemy 100 0 110 h100
    baseAxol 0 0 1 h0 baseAxol 100 0 1 h100

/-- C2: stun() called in any state immediately forces STUNNED and starts
the fixed 2000 ms stun timer; a tick taken in STUNNED is entirely
independent of the target's position (the perception check is never
evaluated), its resulting state is never CHASE, and it becomes PATROL
exactly when the stun timer expires on that tick — even if the target is
inside the vision cone with clear line of sight at that moment. -/
theorem stun_override_spec
    (hits : ℝ → ℝ → ℝ → ℝ → Rect ℝ → Bool) (e eS : Enemy)
    (δ px py qx qy : ℝ) (inp : EnemyTickInput)
    (hS : eS.state = EnemyState.STUNNED) :
    (e.stun).state = EnemyState.STUNNED ∧
    (e.stun).stunTimer = POOP_STUN_DURATION_MS ∧
    Enemy.update hits eS δ px py inp = Enemy.update hits eS δ qx qy inp ∧
    (Enemy.update hits eS δ px py inp).state ≠ EnemyState.CHASE ∧
    ((Enemy.update hits eS δ px py inp).state = EnemyState.PATROL ↔
      eS.stunTimer - δ ≤ 0) := by
  refine ⟨rfl, rfl, ?_, ?_, ?_⟩
  · rw [Enemy.update, Enemy.update, if_pos hS, if_pos hS]
  · rw [Enemy.update, if_pos hS, Enemy.stunnedStep_state]
    split_ifs with h
    · simp
    · rw [hS]
      simp
  · rw [Enemy.update, if_pos hS, Enemy.stunnedStep_state]
    split_ifs with h
    · simp [h]
    · rw [hS]
      simp [h]

theorem stun_override_spec_witness :
    (baseEnemy.stun).state = EnemyState.STUNNED ∧
    (baseEnemy.stun).stunTimer = POOP_STUN_DURATION_MS ∧
    Enemy.update noHits ({ baseEnemy with state := EnemyState.STUNNED } : Enemy)
        100 1 2 quietInput =
      Enemy.update noHits ({ baseEnemy with state := EnemyState.STUNNED } : Enemy)
        100 3 4 quietInput ∧
    (Enemy.update noHits ({ baseEnemy with state := EnemyState.STUNNED } : Enemy)
        100 1 2 quietInput).state ≠ EnemyState.CHASE ∧
    ((Enemy.update noHits ({ baseEnemy with state := EnemyState.STUNNED } : Enemy)
        100 1 2 quietInput).state = EnemyState.PATROL ↔
      ({ baseEnemy with state := EnemyState.STUNNED } : Enemy).stunTimer - 100 ≤ 0) :=
  stun_override_spec noHits baseEnemy { baseEnemy with state := EnemyState.STUNNED }
    100 1 2 3 4 quietInput rfl

/-- C3: per-tick behaviour of the vision block while in CHASE.  On a tick
where the target is perceptible, the last-seen position is refreshed to
the target's current position, the loss timer resets to zero and the
state stays CHASE.  On a tick where it is not, the state becomes SEARCH
exactly when the accumulated loss timer reaches the 3000 ms timeout —
and at that transition the search countdown is set to the 3000 ms search
duration with the last-seen position left untouched — while below the
timeout the only change is the loss timer accumulating by delta. -/
theorem chase_tracking_spec
    (hits : ℝ → ℝ → ℝ → ℝ → Rect ℝ → Bool)
    (e1 : Enemy) (δ1 p1x p1y : ℝ)
    (_h1 : e1.state = EnemyState.CHASE)
    (hsee : Enemy.canSeePlayer hits e1 p1x p1y = true)
    (e2 : Enemy) (δ2 p2x p2y : ℝ)
    (h2 : e2.state = EnemyState.CHASE)
    (hnsee2 : Enemy.canSeePlayer hits e2 p2x p2y = false)
    (hexp : e2.losTimer + δ2 ≥ LOS_LOST_TIMEOUT_MS)
    (e3 : Enemy) (δ3 p3x p3y : ℝ)
    (h3 : e3.state = EnemyState.CHASE)
    (hnsee3 : Enemy.canSeePlayer hits e3 p3x p3y = false)
    (hnexp : e3.losTimer + δ3 < LOS_LOST_TIMEOUT_MS) :
    Enemy.sense hits e1 δ1 p1x p1y =
      { e1 with state := EnemyState.CHASE, lastSeenX := p1x, lastSeenY := p1y,
                losTimer := 0 } ∧
    Enemy.sense hits e2 δ2 p2x p2y =
      { e2 with state := EnemyState.SEARCH, searchTimer := SEARCH_DURATION_MS,
                losTimer := 0 } ∧
    Enemy.sense hits e3 δ3 p3x p3y = { e3 with losTimer := e3.losTimer + δ3 } := by
  refine ⟨?_, ?_, ?_⟩
  · rw [Enemy.sense, if_pos hsee]
  · simp only [Enemy.sense]
    rw [if_neg (by simp [hnsee2]), if_pos h2, if_pos hexp]
  · simp only [Enemy.sense]
    rw [if_neg (by simp [hnsee3]), if_pos h3, if_neg (not_le.mpr hnexp)]

theorem chase_tracking_spec_witness :
    Enemy.sense noHits ({ baseEnemy with state := EnemyState.CHASE } : Enemy) 16 100 0 =
      { ({ baseEnemy with state := EnemyState.CHASE } : Enemy) with
        state := EnemyState.CHASE, lastSeenX := 100, lastSeenY := 0, losTimer := 0 } ∧
    Enemy.sense noHits
        ({ baseEnemy with state := EnemyState.CHASE, losTimer := 2900 } : Enemy) 100 10000 0 =
      { ({ baseEnemy with state := EnemyState.CHASE, losTimer := 2900 } : Enemy) with
        state := EnemyState.SEARCH, searchTimer := SEARCH_DURATION_MS, losTimer := 0 } ∧
    Enemy.sense noHits
        ({ baseEnemy with state := EnemyState.CHASE, losTimer := 2900 } : Enemy) 50 10000 0 =
      { ({ baseEnemy with state := EnemyState.CHASE, losTimer := 2900 } : Enemy) with
        losTimer := ({ baseEnemy with state := EnemyState.CHASE, losTimer := 2900 } : Enemy).losTimer + 50 } := by
  have hsee : Enemy.canSeePlayer noHits
      ({ baseEnemy with state := EnemyState.CHASE } : Enemy) 100 0 = true := by
    simp only [Enemy.canSeePlayer, baseEnemy]
    norm_num [VISION_RANGE]
    rw [atan2_zero_nonneg (by norm_num : (0 : ℝ) ≤ 100)]
    norm_num
    rw [atan2_zero_nonneg (by norm_num : (0 : ℝ) ≤ 1)]
    constructor
    · simp only [abs_zero, degToRad, VISION_HALF_ANGLE_DEG]
      positivity
    · rfl
  have hfar : ∀ lt : ℝ, Enemy.canSeePlayer noHits
      ({ baseEnemy with state := EnemyState.CHASE, losTimer := lt } : Enemy) 10000 0 = false := by
    intro lt
    simp only [Enemy.canSeePlayer, baseEnemy]
    norm_num [VISION_RANGE]
  exact chase_tracking_spec noHits
    ({ baseEnemy with state := EnemyState.CHASE } : Enemy) 16 100 0 rfl hsee
    ({ baseEnemy with state := EnemyState.CHASE, losTimer := 2900 } : Enemy) 100 10000 0
    rfl (hfar 2900) (by norm_num [baseEnemy, LOS_LOST_TIMEOUT_MS])
    ({ baseEnemy with state := EnemyState.CHASE, losTimer := 2900 } : Enemy) 50 10000 0
    rfl (hfar 2900) (by norm_num [baseEnemy, LOS_LOST_TIMEOUT_MS])

/-- C9 counterexample: with an empty waypoint list, a PATROL tick is not
always a no-op that holds position: from a stationary start, on the tick
where the periodic stuck check fires (500 ms with less than 2 px moved),
unstick falls into its velocity-nudge branch (the waypoint-skip branch
needs a nonempty list) and commands a 110 px/s velocity, so the agent
moves. -/
theorem patrol_empty_waypoints_counterexample :
    baseEnemy.state = EnemyState.PATROL ∧ baseEnemy.waypoints = [] ∧ baseEnemy.vx = 0 ∧
    (Enemy.update noHits baseEnemy 500 10000 0 quietInput).vx = 110 := by
  refine ⟨rfl, rfl, rfl, ?_⟩
  have hfar : Enemy.canSeePlayer noHits baseEnemy 10000 0 = false := by
    simp only [Enemy.canSeePlayer, baseEnemy]
    norm_num [VISION_RANGE]
  have hsense : Enemy.sense noHits baseEnemy 500 10000 0 = baseEnemy := by
    simp only [Enemy.sense]
    rw [if_neg (by simp [hfar]), if_neg (by simp [baseEnemy])]
  have hact : Enemy.act baseEnemy 500 10000 0 = baseEnemy := rfl
  rw [Enemy.update, if_neg (by simp [baseEnemy]), hsense, hact]
  simp only [Enemy.updateStuck, Enemy.unstick, hypot, baseEnemy, quietInput]
  norm_num [Real.sqrt_zero, Real.cos_zero]
  rw [if_neg (by simp : ¬(EnemyState.PATROL = EnemyState.CHASE))]
  norm_num [enemyPatrolSpeed]

/-- C9 amended: with an empty waypoint list nothing ever indexes the
list.  The patrol step (updatePatrol) is a complete no-op; a STUNNED tick
substitutes the agent's own position for the missing waypoint, yielding
zero velocity with the position untouched; and a full PATROL tick leaves
velocity and waypoint cursor unchanged provided the periodic stuck
check does not fire on that tick and the body reports no blocked side —
when the stuck check does fire, the recovery nudge commands a velocity
(the behaviour refuted in the counterexample). -/
theorem empty_waypoints_no_fault_spec
    (hits : ℝ → ℝ → ℝ → ℝ → Rect ℝ → Bool)
    (e : Enemy) (h : e.waypoints = [])
    (eS : Enemy) (δ2 p2x p2y : ℝ) (inp2 : EnemyTickInput)
    (hS2 : eS.state = EnemyState.STUNNED) (hwS : eS.waypoints = [])
    (eP : Enemy) (δ3 p3x p3y : ℝ) (inp3 : EnemyTickInput)
    (hP : eP.state = EnemyState.PATROL) (hwP : eP.waypoints = [])
    (hnsee : Enemy.canSeePlayer hits eP p3x p3y = false)
    (hnostuck : ¬ (eP.stuckTimer + δ3 ≥ 500 ∧
      hypot (eP.x - eP.lastX) (eP.y - eP.lastY) < 2))
    (hnb : inp3.blockedLeft = false ∧ inp3.blockedRight = false ∧
      inp3.blockedUp = false ∧ inp3.blockedDown = false) :
    e.updatePatrol = e ∧
    ((Enemy.update hits eS δ2 p2x p2y inp2).vx = 0 ∧
     (Enemy.update hits eS δ2 p2x p2y inp2).vy = 0 ∧
     (Enemy.update hits eS δ2 p2x p2y inp2).x = eS.x ∧
     (Enemy.update hits eS δ2 p2x p2y inp2).y = eS.y) ∧
    ((Enemy.update hits eP δ3 p3x p3y inp3).vx = eP.vx ∧
     (Enemy.update hits eP δ3 p3x p3y inp3).vy = eP.vy ∧
     (Enemy.update hits eP δ3 p3x p3y inp3).waypointIndex = eP.waypointIndex) := by
  refine ⟨?_, ?_, ?_⟩
  · simp only [Enemy.updatePatrol, h]
  · rw [Enemy.update, if_pos hS2]
    simp only [Enemy.stunnedStep]
    split_ifs with hT <;>
      simp [hwS, List.getD, Enemy.moveToward, Real.sqrt_zero]
  · have hns : eP.state ≠ EnemyState.STUNNED := by
      rw [hP]
      simp
    have hsense : Enemy.sense hits eP δ3 p3x p3y = eP := by
      simp only [Enemy.sense]
      rw [if_neg (by simp [hnsee]), if_neg (by rw [hP]; simp)]
    have hact : Enemy.act eP δ3 p3x p3y = eP := by
      rw [Enemy.act]
      rw [hP]
      simp only [Enemy.updatePatrol, hwP]
    rw [Enemy.update, if_neg hns, hsense, hact]
    simp only [Enemy.updateStuck]
    split_ifs with h1 h2 h3 h4 h5
    · exact absurd ⟨h1, h2⟩ hnostuck
    · exact absurd ⟨h1, h2⟩ hnostuck
    · exact absurd h4.2.1 (by simp [hnb.1, hnb.2.1, hnb.2.2.1, hnb.2.2.2])
    · simp
    · exact absurd h5.2.1 (by simp [hnb.1, hnb.2.1, hnb.2.2.1, hnb.2.2.2])
    · simp

theorem empty_waypoints_no_fault_spec_witness :
    baseEnemy.updatePatrol = baseEnemy ∧
    ((Enemy.update noHits ({ baseEnemy with state := EnemyState.STUNNED } : Enemy)
        100 1 2 quietInput).vx = 0 ∧
     (Enemy.update noHits ({ baseEnemy with state := EnemyState.STUNNED } : Enemy)
        100 1 2 quietInput).vy = 0 ∧
     (Enemy.update noHits ({ baseEnemy with state := EnemyState.STUNNED } : Enemy)
        100 1 2 quietInput).x =
       ({ baseEnemy with state := EnemyState.STUNNED } : Enemy).x ∧
     (Enemy.update noHits ({ baseEnemy with state := EnemyState.STUNNED } : Enemy)
        100 1 2 quietInput).y =
       ({ baseEnemy with state := EnemyState.STUNNED } : Enemy).y) ∧
    ((Enemy.update noHits baseEnemy 100 10000 0 quietInput).vx = baseEnemy.vx ∧
     (Enemy.update noHits baseEnemy 100 10000 0 quietInput).vy = baseEnemy.vy ∧
     (Enemy.update noHits baseEnemy 100 10000 0 quietInput).waypointIndex =
       baseEnemy.waypointIndex) := by
  have hfar : Enemy.canSeePlayer noHits baseEnemy 10000 0 = false := by
    simp only [Enemy.canSeePlayer, baseEnemy]
    norm_num [VISION_RANGE]
  exact empty_waypoints_no_fault_spec noHits baseEnemy rfl
    ({ baseEnemy with state := EnemyState.STUNNED } : Enemy) 100 1 2 quietInput rfl rfl
    baseEnemy 100 10000 0 quietInput rfl rfl hfar
    (by
      intro hc
      have h1 := hc.1
      norm_num [baseEnemy] at h1)
    ⟨rfl, rfl, rfl, rfl⟩

/-! Further component lemmas used by the waypoint-invariance proofs. -/

@[simp] lemma Enemy.moveToward_searchTimer (e : Enemy) (tx ty sp : ℝ) :
    (e.moveToward tx ty sp).searchTimer = e.searchTimer := by
  simp only [Enemy.moveToward]
  split_ifs <;> rfl

@[simp] lemma Enemy.moveToward_stuckTimerEq (e : Enemy) (tx ty sp : ℝ) :
    (e.moveToward tx ty sp).blockedCooldown = e.blockedCooldown := by
  simp only [Enemy.moveToward]
  split_ifs <;> rfl

@[simp] lemma Enemy.sense_waypointIndex (hits : ℝ → ℝ → ℝ → ℝ → Rect ℝ → Bool)
    (e : Enemy) (δ px py : ℝ) :
    (Enemy.sense hits e δ px py).waypointIndex = e.waypointIndex := by
  simp only [Enemy.sense]
  split_ifs <;> rfl

@[simp] lemma Enemy.sense_x (hits : ℝ → ℝ → ℝ → ℝ → Rect ℝ → Bool)
    (e : Enemy) (δ px py : ℝ) : (Enemy.sense hits e δ px py).x = e.x := by
  simp only [Enemy.sense]
  split_ifs <;> rfl

@[simp] lemma Enemy.sense_y (hits : ℝ → ℝ → ℝ → ℝ → Rect ℝ → Bool)
    (e : Enemy) (δ px py : ℝ) : (Enemy.sense hits e δ px py).y = e.y := by
  simp only [Enemy.sense]
  split_ifs <;> rfl

@[simp] lemma Enemy.sense_lastX (hits : ℝ → ℝ → ℝ → ℝ → Rect ℝ → Bool)
    (e : Enemy) (δ px py : ℝ) : (Enemy.sense hits e δ px py).lastX = e.lastX := by
  simp only [Enemy.sense]
  split_ifs <;> rfl

@[simp] lemma Enemy.sense_lastY (hits : ℝ → ℝ → ℝ → ℝ → Rect ℝ → Bool)
    (e : Enemy) (δ px py : ℝ) : (Enemy.sense hits e δ px py).lastY = e.lastY := by
  simp only [Enemy.sense]
  split_ifs <;> rfl

@[simp] lemma Enemy.sense_stuckTimer (hits : ℝ → ℝ → ℝ → ℝ → Rect ℝ → Bool)
    (e : Enemy) (δ px py : ℝ) :
    (Enemy.sense hits e δ px py).stuckTimer = e.stuckTimer := by
  simp only [Enemy.sense]
  split_ifs <;> rfl

lemma Enemy.sense_state_mem (hits : ℝ → ℝ → ℝ → ℝ → Rect ℝ → Bool)
    (e : Enemy) (δ px py : ℝ)
    (h : e.state = EnemyState.CHASE ∨ e.state = EnemyState.SEARCH) :
    (Enemy.sense hits e δ px py).state = EnemyState.CHASE ∨
    (Enemy.sense hits e δ px py).state = EnemyState.SEARCH := by
  simp only [Enemy.sense]
  split_ifs <;> simp_all

lemma Enemy.updateSearch_state_cases (e : Enemy) (δ : ℝ) :
    (e.updateSearch δ).state = e.state ∨ (e.updateSearch δ).state = EnemyState.PATROL := by
  simp only [Enemy.updateSearch]
  split_ifs <;> simp

lemma Enemy.updateSearch_exit_velocity (e : Enemy) (δ : ℝ)
    (h : e.state ≠ EnemyState.PATROL)
    (hp : (e.updateSearch δ).state = EnemyState.PATROL) :
    (e.updateSearch δ).vx = 0 ∧ (e.updateSearch δ).vy = 0 := by
  simp only [Enemy.updateSearch] at hp ⊢
  split_ifs at hp ⊢ with hd ht
  · rw [Enemy.moveToward_state] at hp
    exact absurd hp h
  · simp
  · exact absurd hp h

lemma Enemy.updateSearch_searchTimer_far (e : Enemy) (δ : ℝ)
    (hd : Real.sqrt ((e.lastSeenX - e.x) * (e.lastSeenX - e.x) +
      (e.lastSeenY - e.y) * (e.lastSeenY - e.y)) > WAYPOINT_ARRIVE_DIST) :
    (e.updateSearch δ).searchTimer = e.searchTimer := by
  simp only [Enemy.updateSearch]
  rw [if_pos hd]
  simp

lemma Enemy.updateSearch_state_iff (e : Enemy) (δ : ℝ)
    (h : e.state = EnemyState.SEARCH) :
    ((e.updateSearch δ).state = EnemyState.PATROL ↔
      (Real.sqrt ((e.lastSeenX - e.x) * (e.lastSeenX - e.x) +
        (e.lastSeenY - e.y) * (e.lastSeenY - e.y)) ≤ WAYPOINT_ARRIVE_DIST ∧
       e.searchTimer - δ ≤ 0)) := by
  simp only [Enemy.updateSearch]
  split_ifs with hd ht
  · rw [Enemy.moveToward_state, h]
    constructor
    · intro hc
      exact absurd hc (by simp)
    · intro hc
      linarith [hc.1]
  · constructor
    · intro _
      exact ⟨le_of_not_lt hd, ht⟩
    · intro _
      rfl
  · rw [h]
    constructor
    · intro hc
      exact absurd hc (by simp)
    · intro hc
      exact absurd hc.2 ht

lemma Enemy.updateStuck_waypointIndex_of_quiet (e : Enemy) (δ : ℝ) (inp : EnemyTickInput)
    (hq : ¬ (e.stuckTimer + δ ≥ 500 ∧ hypot (e.x - e.lastX) (e.y - e.lastY) < 2))
    (hv : ¬ (|e.vx| > 10 ∨ |e.vy| > 10)) :
    (e.updateStuck δ inp).waypointIndex = e.waypointIndex := by
  simp only [Enemy.updateStuck]
  split_ifs with h1 h2 h3 h4 h5
  · exact absurd ⟨h1, h2⟩ hq
  · exact absurd ⟨h1, h2⟩ hq
  · exact absurd h4.2.2 hv
  · simp
  · exact absurd h5.2.2 hv
  · simp

/-- C4 counterexample: the waypoint cursor is not invariant across the
whole CHASE/SEARCH episode.  On the very tick on which SEARCH expires
into PATROL, the periodic stuck check (the enemy has been idling at the
last-seen position, so it has moved less than 2 px) runs after the state
switch; unstick then sees state PATROL with a nonempty waypoint list and
advances the cursor from 0 to 1. -/
theorem search_exit_waypoint_counterexample :
    searchArrivedEnemy.state = EnemyState.SEARCH ∧
    searchArrivedEnemy.waypointIndex = 0 ∧
    (Enemy.update noHits searchArrivedEnemy 500 10000 0 quietInput).state =
      EnemyState.PATROL ∧
    (Enemy.update noHits searchArrivedEnemy 500 10000 0 quietInput).waypointIndex = 1 := by
  refine ⟨rfl, rfl, ?_⟩
  have hfar : Enemy.canSeePlayer noHits searchArrivedEnemy 10000 0 = false := by
    simp only [Enemy.canSeePlayer, searchArrivedEnemy, baseEnemy]
    norm_num [VISION_RANGE]
  have hsense : Enemy.sense noHits searchArrivedEnemy 500 10000 0 = searchArrivedEnemy := by
    simp only [Enemy.sense]
    rw [if_neg (by simp [hfar]), if_neg (by simp [searchArrivedEnemy, baseEnemy])]
  have hact : Enemy.act searchArrivedEnemy 500 10000 0 =
      { searchArrivedEnemy with
        state := EnemyState.PATROL
        vx := 0
        vy := 0
        searchTimer := 100 - 500 } := by
    show Enemy.updateSearch searchArrivedEnemy 500 =
      { searchArrivedEnemy with
        state := EnemyState.PATROL
        vx := 0
        vy := 0
        searchTimer := 100 - 500 }
    simp only [Enemy.updateSearch, searchArrivedEnemy, baseEnemy]
    norm_num [Real.sqrt_zero, WAYPOINT_ARRIVE_DIST]
  rw [Enemy.update, if_neg (by simp [searchArrivedEnemy, baseEnemy]), hsense, hact]
  simp only [Enemy.updateStuck, Enemy.unstick, hypot, searchArrivedEnemy, baseEnemy, quietInput]
  norm_num [Real.sqrt_zero]
  simp

/-- C4 amended: the pursuer leaves SEARCH for PATROL exactly when it is
within the 20 px arrival radius of the last-seen position AND the search
countdown has expired this tick; the countdown only runs down while
within that radius; and the CHASE and SEARCH handlers never modify the
waypoint cursor: any tick that starts and ends inside the episode leaves
the cursor unchanged, and so does the tick that exits SEARCH into
PATROL, provided the periodic stuck check does not fire on that very
tick (when it does, PATROL stuck recovery advances the cursor by one, as
in the counterexample; the cursor is never reset). -/
theorem search_exit_waypoint_spec
    (hits : ℝ → ℝ → ℝ → ℝ → Rect ℝ → Bool)
    (e1 : Enemy) (δ1 : ℝ) (h1 : e1.state = EnemyState.SEARCH)
    (e2 : Enemy) (δ2 p2x p2y : ℝ) (inp2 : EnemyTickInput)
    (h2 : e2.state = EnemyState.CHASE ∨ e2.state = EnemyState.SEARCH)
    (h2b : (Enemy.update hits e2 δ2 p2x p2y inp2).state = EnemyState.CHASE ∨
           (Enemy.update hits e2 δ2 p2x p2y inp2).state = EnemyState.SEARCH)
    (e3 : Enemy) (δ3 p3x p3y : ℝ) (inp3 : EnemyTickInput)
    (h3 : e3.state = EnemyState.CHASE ∨ e3.state = EnemyState.SEARCH)
    (h3b : (Enemy.update hits e3 δ3 p3x p3y inp3).state = EnemyState.PATROL)
    (h3c : ¬ (e3.stuckTimer + δ3 ≥ 500 ∧
      hypot (e3.x - e3.lastX) (e3.y - e3.lastY) < 2)) :
    ((e1.updateSearch δ1).state = EnemyState.PATROL ↔
      (Real.sqrt ((e1.lastSeenX - e1.x) * (e1.lastSeenX - e1.x) +
        (e1.lastSeenY - e1.y) * (e1.lastSeenY - e1.y)) ≤ WAYPOINT_ARRIVE_DIST ∧
       e1.searchTimer - δ1 ≤ 0)) ∧
    (Real.sqrt ((e1.lastSeenX - e1.x) * (e1.lastSeenX - e1.x) +
        (e1.lastSeenY - e1.y) * (e1.lastSeenY - e1.y)) > WAYPOINT_ARRIVE_DIST →
      (e1.updateSearch δ1).searchTimer = e1.searchTimer) ∧
    (e1.updateSearch δ1).waypointIndex = e1.waypointIndex ∧
    (Enemy.update hits e2 δ2 p2x p2y inp2).waypointIndex = e2.waypointIndex ∧
    (Enemy.update hits e3 δ3 p3x p3y inp3).waypointIndex = e3.waypointIndex := by
  refine ⟨Enemy.updateSearch_state_iff e1 δ1 h1,
    Enemy.updateSearch_searchTimer_far e1 δ1, Enemy.updateSearch_waypointIndex e1 δ1, ?_, ?_⟩
  · have hns : e2.state ≠ EnemyState.STUNNED := by
      rcases h2 with h | h <;> rw [h] <;> simp
    rw [Enemy.update, if_neg hns] at h2b ⊢
    have hsstate := Enemy.sense_state_mem hits e2 δ2 p2x p2y h2
    have hsnp : (Enemy.sense hits e2 δ2 p2x p2y).state ≠ EnemyState.PATROL := by
      rcases hsstate with h | h <;> rw [h] <;> simp
    have hafinal : ((Enemy.sense hits e2 δ2 p2x p2y).act δ2 p2x p2y).state =
        EnemyState.CHASE ∨
        ((Enemy.sense hits e2 δ2 p2x p2y).act δ2 p2x p2y).state = EnemyState.SEARCH := by
      rw [Enemy.updateStuck_state] at h2b
      exact h2b
    have hanp : ((Enemy.sense hits e2 δ2 p2x p2y).act δ2 p2x p2y).state ≠
        EnemyState.PATROL := by
      rcases hafinal with h | h <;> rw [h] <;> simp
    have haidx : ((Enemy.sense hits e2 δ2 p2x p2y).act δ2 p2x p2y).waypointIndex =
        (Enemy.sense hits e2 δ2 p2x p2y).waypointIndex := by
      rcases hsstate with h | h <;>
        · simp only [Enemy.act]
          rw [h]
          simp
    rw [Enemy.updateStuck_waypointIndex_of_ne _ _ _ hanp, haidx,
      Enemy.sense_waypointIndex]
  · have hns : e3.state ≠ EnemyState.STUNNED := by
      rcases h3 with h | h <;> rw [h] <;> simp
    rw [Enemy.update, if_neg hns] at h3b ⊢
    have hsstate := Enemy.sense_state_mem hits e3 δ3 p3x p3y h3
    have hap : ((Enemy.sense hits e3 δ3 p3x p3y).act δ3 p3x p3y).state =
        EnemyState.PATROL := by
      rw [Enemy.updateStuck_state] at h3b
      exact h3b
    rcases hsstate with hsc | hss
    · exfalso
      have : ((Enemy.sense hits e3 δ3 p3x p3y).act δ3 p3x p3y).state =
          EnemyState.CHASE := by
        simp only [Enemy.act]
        rw [hsc]
        simp [hsc]
      rw [this] at hap
      exact absurd hap (by simp)
    · have hform : (Enemy.sense hits e3 δ3 p3x p3y).act δ3 p3x p3y =
          (Enemy.sense hits e3 δ3 p3x p3y).updateSearch δ3 := by
        simp only [Enemy.act]
        rw [hss]
    -- the SEARCH handler produced the PATROL exit: velocity was zeroed
      have hsnp : (Enemy.sense hits e3 δ3 p3x p3y).state ≠ EnemyState.PATROL := by
        rw [hss]
        simp
      have hvel := Enemy.updateSearch_exit_velocity (Enemy.sense hits e3 δ3 p3x p3y) δ3
        hsnp (by rw [← hform]; exact hap)
      rw [hform]
      rw [Enemy.updateStuck_waypointIndex_of_quiet]
      · rw [Enemy.updateSearch_waypointIndex, Enemy.sense_waypointIndex]
      · simp only [Enemy.updateSearch_stuckTimer, Enemy.sense_stuckTimer,
          Enemy.updateSearch_x, Enemy.updateSearch_y, Enemy.updateSearch_lastX,
          Enemy.updateSearch_lastY, Enemy.sense_x, Enemy.sense_y, Enemy.sense_lastX,
          Enemy.sense_lastY]
        exact h3c
      · rw [← hform] at hvel
        rw [← hform]
        intro hc
        rcases hc with hc | hc
        · rw [hvel.1] at hc
          simp at hc
          linarith
        · rw [hvel.2] at hc
          simp at hc
          linarith

theorem search_exit_waypoint_spec_witness :
    ((searchArrivedEnemy.updateSearch 100).state = EnemyState.PATROL ↔
      (Real.sqrt ((searchArrivedEnemy.lastSeenX - searchArrivedEnemy.x) *
          (searchArrivedEnemy.lastSeenX - searchArrivedEnemy.x) +
        (searchArrivedEnemy.lastSeenY - searchArrivedEnemy.y) *
          (searchArrivedEnemy.lastSeenY - searchArrivedEnemy.y)) ≤ WAYPOINT_ARRIVE_DIST ∧
       searchArrivedEnemy.searchTimer - 100 ≤ 0)) ∧
    (Real.sqrt ((searchArrivedEnemy.lastSeenX - searchArrivedEnemy.x) *
        (searchArrivedEnemy.lastSeenX - searchArrivedEnemy.x) +
      (searchArrivedEnemy.lastSeenY - searchArrivedEnemy.y) *
        (searchArrivedEnemy.lastSeenY - searchArrivedEnemy.y)) > WAYPOINT_ARRIVE_DIST →
      (searchArrivedEnemy.updateSearch 100).searchTimer = searchArrivedEnemy.searchTimer) ∧
    (searchArrivedEnemy.updateSearch 100).waypointIndex =
      searchArrivedEnemy.waypointIndex ∧
    (Enemy.update noHits chasingEnemy 16 10000 0 quietInput).waypointIndex =
      chasingEnemy.waypointIndex ∧
    (Enemy.update noHits searchArrivedEnemy 100 10000 0 quietInput).waypointIndex =
      searchArrivedEnemy.waypointIndex := by
  have hfarC : Enemy.canSeePlayer noHits chasingEnemy 10000 0 = false := by
    simp only [Enemy.canSeePlayer, chasingEnemy, baseEnemy]
    norm_num [VISION_RANGE]
  have hfarS : Enemy.canSeePlayer noHits searchArrivedEnemy 10000 0 = false := by
    simp only [Enemy.canSeePlayer, searchArrivedEnemy, baseEnemy]
    norm_num [VISION_RANGE]
  have hsenseC : Enemy.sense noHits chasingEnemy 16 10000 0 =
      { chasingEnemy with losTimer := chasingEnemy.losTimer + 16 } := by
    simp only [Enemy.sense]
    rw [if_neg (by simp [hfarC]), if_pos (show chasingEnemy.state = EnemyState.CHASE from rfl), if_neg]
    norm_num [chasingEnemy, baseEnemy, LOS_LOST_TIMEOUT_MS]
  have h2b : (Enemy.update noHits chasingEnemy 16 10000 0 quietInput).state =
      EnemyState.CHASE := by
    rw [Enemy.update, if_neg (by simp [chasingEnemy, baseEnemy]), Enemy.updateStuck_state,
      hsenseC]
    simp [Enemy.act, Enemy.moveToward_state, chasingEnemy, baseEnemy]
  have hsenseS : Enemy.sense noHits searchArrivedEnemy 100 10000 0 =
      searchArrivedEnemy := by
    simp only [Enemy.sense]
    rw [if_neg (by simp [hfarS]), if_neg (by simp [searchArrivedEnemy, baseEnemy])]
  have h3b : (Enemy.update noHits searchArrivedEnemy 100 10000 0 quietInput).state =
      EnemyState.PATROL := by
    rw [Enemy.update, if_neg (by simp [searchArrivedEnemy, baseEnemy]),
      Enemy.updateStuck_state, hsenseS]
    show (Enemy.updateSearch searchArrivedEnemy 100).state = EnemyState.PATROL
    simp only [Enemy.updateSearch, searchArrivedEnemy, baseEnemy]
    norm_num [Real.sqrt_zero, WAYPOINT_ARRIVE_DIST]
  exact search_exit_waypoint_spec noHits searchArrivedEnemy 100 rfl
    chasingEnemy 16 10000 0 quietInput (Or.inl rfl) (Or.inl h2b)
    searchArrivedEnemy 100 10000 0 quietInput (Or.inr rfl) h3b
    (by
      intro hc
      have h1 := hc.1
      norm_num [searchArrivedEnemy, baseEnemy] at h1)

lemma Enemy.isRayBlocked_eq_false_iff (hits : ℝ → ℝ → ℝ → ℝ → Rect ℝ → Bool)
    (x1 y1 x2 y2 : ℝ) (obs : List (Rect ℝ)) :
    Enemy.isRayBlocked hits x1 y1 x2 y2 obs = false ↔
      ∀ r ∈ obs, hits x1 y1 x2 y2 r = false := by
  induction obs with
  | nil => simp [Enemy.isRayBlocked]
  | cons r rest ih =>
    rw [Enemy.isRayBlocked]
    by_cases h : hits x1 y1 x2 y2 r
    · simp [h]
    · rw [if_neg (by simp [h]), ih]
      constructor
      · intro hall s hs
        rcases List.mem_cons.mp hs with hsr | hsrest
        · subst hsr
          simpa using h
        · exact hall s hsrest
      · intro hall s hs
        exact hall s (List.mem_cons_of_mem r hs)

/-- C1: the perception check returns true exactly when (1) the squared
distance to the target is at most VISION_RANGE squared, (2) the angle
difference between the bearing and the facing, normalised into (-pi, pi]
by atan2(sin, cos), has absolute value at most the 35-degree half angle,
and (3) the ray-vs-obstacles loop reports no hit — which holds exactly
when no obstacle rectangle is hit.  Both boundaries are inclusive: a
target at exactly VISION_RANGE distance and bearing exactly at the half
angle, with no obstacles, is perceived. -/
theorem canSeePlayer_perception_spec
    (hits : ℝ → ℝ → ℝ → ℝ → Rect ℝ → Bool) (e : Enemy) (px py : ℝ)
    (x1 y1 x2 y2 : ℝ) (obs : List (Rect ℝ)) :
    (Enemy.canSeePlayer hits e px py = true ↔
      ((px - e.x) * (px - e.x) + (py - e.y) * (py - e.y) ≤
          VISION_RANGE * VISION_RANGE ∧
       |atan2 (Real.sin (atan2 (py - e.y) (px - e.x) - e.facingAngle))
          (Real.cos (atan2 (py - e.y) (px - e.x) - e.facingAngle))| ≤
         degToRad VISION_HALF_ANGLE_DEG ∧
       Enemy.isRayBlocked hits e.x e.y px py e.obstacles = false)) ∧
    (Enemy.isRayBlocked hits x1 y1 x2 y2 obs = false ↔
      ∀ r ∈ obs, hits x1 y1 x2 y2 r = false) ∧
    Enemy.canSeePlayer hits baseEnemy
      (VISION_RANGE * Real.cos (degToRad VISION_HALF_ANGLE_DEG))
      (VISION_RANGE * Real.sin (degToRad VISION_HALF_ANGLE_DEG)) = true := by
  refine ⟨?_, Enemy.isRayBlocked_eq_false_iff hits x1 y1 x2 y2 obs, ?_⟩
  · simp only [Enemy.canSeePlayer]
    split_ifs with hd ha
    · simp only [Bool.false_eq_true, false_iff]
      intro hc
      exact absurd hc.1 (not_le.mpr hd)
    · simp only [Bool.false_eq_true, false_iff]
      intro hc
      exact absurd hc.2.1 (not_le.mpr ha)
    · rw [Bool.not_eq_true']
      constructor
      · intro hb
        exact ⟨le_of_not_lt hd, le_of_not_lt ha, hb⟩
      · intro hc
        exact hc.2.2
  · have hpi := Real.pi_pos
    have hθpos : 0 < degToRad VISION_HALF_ANGLE_DEG := by
      simp only [degToRad, VISION_HALF_ANGLE_DEG]
      positivity
    have hθle : degToRad VISION_HALF_ANGLE_DEG ≤ Real.pi := by
      simp only [degToRad, VISION_HALF_ANGLE_DEG]
      nlinarith
    have hθgt : -Real.pi < degToRad VISION_HALF_ANGLE_DEG := by linarith
    have hr : (0 : ℝ) < VISION_RANGE := by norm_num [VISION_RANGE]
    simp only [Enemy.canSeePlayer, baseEnemy, sub_zero]
    rw [if_neg, if_neg]
    · rfl
    · rw [atan2_mul_sin_cos hr hθgt hθle, atan2_sin_cos hθgt hθle,
        abs_of_nonneg hθpos.le]
      exact not_lt.mpr le_rfl
    · have hkey := Real.sin_sq_add_cos_sq (degToRad VISION_HALF_ANGLE_DEG)
      intro hc
      nlinarith

@[simp] lemma Axol.steerToward_detourPoint (a : Axol) (tx ty off : ℝ) :
    (a.steerToward tx ty off).detourPoint = a.detourPoint := by
  simp only [Axol.steerToward]
  split_ifs <;> rfl

@[simp] lemma Axol.steerToward_detourDir (a : Axol) (tx ty off : ℝ) :
    (a.steerToward tx ty off).detourDir = a.detourDir := by
  simp only [Axol.steerToward]
  split_ifs <;> rfl

@[simp] lemma Axol.steerToward_currentTarget (a : Axol) (tx ty off : ℝ) :
    (a.steerToward tx ty off).currentTarget = a.currentTarget := by
  simp only [Axol.steerToward]
  split_ifs <;> rfl

/-- C6: detour-point stability and sticky-side recomputation.  While a
detour point exists, the agent is at least 24 px away from it and the
detour timer (after this tick's increment) has not exceeded 700 ms, the
tick leaves the detour point unchanged.  When computeDetourPoint runs
with a held target at least 1 px away, writing c1 and c2 for the two
placements 110 px along the unit perpendicular to the vector toward the
target, it commits to the currently-preferred (sticky) side whenever that
side is collision-free, keeping the preference, and switches to the other
side, flipping the preference, only when the preferred placement is not
collision-free and the other one is. -/
theorem detour_stability_spec
    (a : Axol) (treats : List Treat) (δ : ℝ) (p : ℝ × ℝ)
    (hp : a.detourPoint = some p)
    (hnr : ¬ hypot (a.x - p.1) (a.y - p.2) < 24)
    (ht : ¬ a.detourTimer + δ > 700)
    (b : Axol) (treatsB : List Treat) (i : ℕ)
    (hT : b.currentTarget = some i)
    (hdir : b.detourDir = 1 ∨ b.detourDir = -1)
    (hlen : ¬ Real.sqrt (((treatAt treatsB i).x - b.x) * ((treatAt treatsB i).x - b.x) +
      ((treatAt treatsB i).y - b.y) * ((treatAt treatsB i).y - b.y)) < 1) :
    (a.updateDetour treats δ).detourPoint = some p ∧
    (let t := treatAt treatsB i
     let len := Real.sqrt ((t.x - b.x) * (t.x - b.x) + (t.y - b.y) * (t.y - b.y))
     let px := -(t.y - b.y) / len
     let py := (t.x - b.x) / len
     let c1 : ℝ × ℝ := (b.x + px * 110, b.y + py * 110)
     let c2 : ℝ × ℝ := (b.x - px * 110, b.y - py * 110)
     let preferred : ℝ × ℝ := if b.detourDir = 1 then c1 else c2
     let other : ℝ × ℝ := if b.detourDir = 1 then c2 else c1
     (b.isSafePosition preferred.1 preferred.2 = true →
        (b.computeDetourPoint treatsB).detourPoint = some preferred ∧
        (b.computeDetourPoint treatsB).detourDir = b.detourDir) ∧
     (b.isSafePosition preferred.1 preferred.2 = false →
      b.isSafePosition other.1 other.2 = true →
        (b.computeDetourPoint treatsB).detourPoint = some other ∧
        (b.computeDetourPoint treatsB).detourDir = -b.detourDir)) := by
  constructor
  · simp only [Axol.updateDetour, hp]
    rw [if_neg]
    · simp [Axol.steerToward_detourPoint, hp]
    · intro hc
      rcases hc with hc | hc | hc
      · simp at hc
      · exact hnr hc
      · exact ht hc
  · intro t len px py c1 c2 preferred other
    rcases hdir with hd1 | hdm1
    · have hpre : preferred = c1 := if_pos hd1
      have hoth : other = c2 := if_pos hd1
      rw [hpre, hoth]
      constructor
      · intro hsafe
        simp only [Axol.computeDetourPoint, hT]
        rw [if_neg hlen, if_pos ⟨hd1, hsafe⟩]
        exact ⟨rfl, rfl⟩
      · intro hunsafe hother
        simp only [Axol.computeDetourPoint, hT]
        rw [if_neg hlen, if_neg (by
            intro hc
            rw [hc.2] at hunsafe
            exact Bool.true_eq_false.mp hunsafe), if_pos hother]
        refine ⟨rfl, ?_⟩
        rw [hd1]
    · have hne1 : ¬ b.detourDir = 1 := by
        rw [hdm1]
        norm_num
      have hpre : preferred = c2 := if_neg hne1
      have hoth : other = c1 := if_neg hne1
      rw [hpre, hoth]
      constructor
      · intro hsafe
        simp only [Axol.computeDetourPoint, hT]
        rw [if_neg hlen, if_neg (by
            intro hc
            exact hne1 hc.1), if_pos hsafe]
        exact ⟨rfl, by rw [hdm1]⟩
      · intro hunsafe hother
        simp only [Axol.computeDetourPoint, hT]
        rw [if_neg hlen, if_neg (by
            intro hc
            exact hne1 hc.1), if_neg (by
            intro hc
            rw [hc] at hunsafe
            exact Bool.true_eq_false.mp hunsafe), if_pos hother]
        refine ⟨rfl, ?_⟩
        rw [hdm1]
        norm_num

theorem detour_stability_spec_witness :
    (detourAxol.updateDetour detourTreats 100).detourPoint = some (1000, 1000) ∧
    (let t := treatAt detourTreats 0
     let len := Real.sqrt ((t.x - detourAxol.x) * (t.x - detourAxol.x) +
       (t.y - detourAxol.y) * (t.y - detourAxol.y))
     let px := -(t.y - detourAxol.y) / len
     let py := (t.x - detourAxol.x) / len
     let c1 : ℝ × ℝ := (detourAxol.x + px * 110, detourAxol.y + py * 110)
     let c2 : ℝ × ℝ := (detourAxol.x - px * 110, detourAxol.y - py * 110)
     let preferred : ℝ × ℝ := if detourAxol.detourDir = 1 then c1 else c2
     let other : ℝ × ℝ := if detourAxol.detourDir = 1 then c2 else c1
     (detourAxol.isSafePosition preferred.1 preferred.2 = true →
        (detourAxol.computeDetourPoint detourTreats).detourPoint = some preferred ∧
        (detourAxol.computeDetourPoint detourTreats).detourDir = detourAxol.detourDir) ∧
     (detourAxol.isSafePosition preferred.1 preferred.2 = false →
      detourAxol.isSafePosition other.1 other.2 = true →
        (detourAxol.computeDetourPoint detourTreats).detourPoint = some other ∧
        (detourAxol.computeDetourPoint detourTreats).detourDir = -detourAxol.detourDir)) := by
  have hs10000 : Real.sqrt 10000 = 100 := by
    rw [show (10000 : ℝ) = 100 ^ 2 by norm_num]
    exact Real.sqrt_sq (by norm_num)
  refine detour_stability_spec detourAxol detourTreats 100 (1000, 1000) rfl ?_ ?_
    detourAxol detourTreats 0 rfl (Or.inl rfl) ?_
  · intro hc
    rw [hypot] at hc
    norm_num [detourAxol, baseAxol] at hc
    have h24 : (24 : ℝ) ≤ Real.sqrt 2000000 := by
      rw [Real.le_sqrt' (by norm_num : (0 : ℝ) < 24)]
      norm_num
    linarith
  · norm_num [detourAxol, baseAxol]
  · intro hc
    norm_num [treatAt, detourTreats, detourAxol, baseAxol, hs10000] at hc

/-! Characterisation of the findNearest scan. -/

lemma Axol.findNearestAux_none_iff (ax ay : ℝ) (l : List Treat) :
    ∀ (i : ℕ) (best : Option (ℕ × ℝ)),
      (Axol.findNearestAux ax ay l i best = none ↔
        best = none ∧ ∀ t ∈ l, t.active = false) := by
  induction l with
  | nil =>
    intro i best
    simp [Axol.findNearestAux]
  | cons t ts ih =>
    intro i best
    simp only [Axol.findNearestAux]
    by_cases ht : t.active = true
    · rw [if_pos ht]
      cases best with
      | none =>
        rw [ih]
        simp [ht]
      | some p =>
        rcases p with ⟨j0, bd⟩
        dsimp only
        split_ifs <;>
          · rw [ih]
            simp [ht]
    · rw [if_neg ht]
      rw [ih]
      constructor
      · intro ⟨hb, hall⟩
        refine ⟨hb, ?_⟩
        intro s hs
        rcases List.mem_cons.mp hs with hsr | hsrest
        · subst hsr
          exact Bool.not_eq_true s.active ▸ Bool.of_not_eq_true ht
        · exact hall s hsrest
      · intro ⟨hb, hall⟩
        exact ⟨hb, fun s hs => hall s (List.mem_cons_of_mem t hs)⟩

lemma Axol.findNearestAux_min (ax ay : ℝ) (l : List Treat) :
    ∀ (i : ℕ) (best : Option (ℕ × ℝ)) (j : ℕ) (d : ℝ),
      Axol.findNearestAux ax ay l i best = some (j, d) →
      (∀ t ∈ l, t.active = true → d ≤ treatDistSq ax ay t) ∧
      (∀ p : ℕ × ℝ, best = some p → d ≤ p.2) := by
  induction l with
  | nil =>
    intro i best j d h
    simp only [Axol.findNearestAux] at h
    refine ⟨by simp, ?_⟩
    intro p hp
    rw [hp] at h
    cases h
    rfl
  | cons t ts ih =>
    intro i best j d h
    simp only [Axol.findNearestAux] at h
    by_cases ht : t.active = true
    · rw [if_pos ht] at h
      cases best with
      | none =>
        dsimp only at h
        have hrec := ih (i + 1) (some (i, treatDistSq ax ay t)) j d (by
          simpa [treatDistSq] using h)
        refine ⟨?_, ?_⟩
        · intro s hs hsa
          rcases List.mem_cons.mp hs with hsr | hsrest
          · subst hsr
            exact hrec.2 _ rfl
          · exact hrec.1 s hsrest hsa
        · intro p hp
          cases hp
      | some q =>
        rcases q with ⟨j0, bd⟩
        dsimp only at h
        by_cases hlt : (t.x - ax) * (t.x - ax) + (t.y - ay) * (t.y - ay) < bd
        · rw [if_pos hlt] at h
          have hrec := ih (i + 1) (some (i, treatDistSq ax ay t)) j d (by
            simpa [treatDistSq] using h)
          have hdt : d ≤ treatDistSq ax ay t := hrec.2 _ rfl
          refine ⟨?_, ?_⟩
          · intro s hs hsa
            rcases List.mem_cons.mp hs with hsr | hsrest
            · subst hsr
              exact hdt
            · exact hrec.1 s hsrest hsa
          · intro p hp
            cases hp
            have hb2 : treatDistSq ax ay t ≤ bd := by
              simp only [treatDistSq]
              exact le_of_lt hlt
            exact le_trans hdt hb2
        · rw [if_neg hlt] at h
          have hrec := ih (i + 1) (some (j0, bd)) j d h
          have hbd : d ≤ bd := hrec.2 _ rfl
          refine ⟨?_, ?_⟩
          · intro s hs hsa
            rcases List.mem_cons.mp hs with hsr | hsrest
            · subst hsr
              have : bd ≤ treatDistSq ax ay s := by
                simp only [treatDistSq]
                exact le_of_not_lt hlt
              linarith
            · exact hrec.1 s hsrest hsa
          · intro p hp
            cases hp
            exact hbd
    · rw [if_neg ht] at h
      have hrec := ih (i + 1) best j d h
      refine ⟨?_, hrec.2⟩
      intro s hs hsa
      rcases List.mem_cons.mp hs with hsr | hsrest
      · subst hsr
        exact absurd hsa ht
      · exact hrec.1 s hsrest hsa

lemma Axol.findNearestAux_active (ax ay : ℝ) (l : List Treat) :
    ∀ (i : ℕ) (best : Option (ℕ × ℝ)) (j : ℕ) (d : ℝ),
      Axol.findNearestAux ax ay l i best = some (j, d) →
      best = some (j, d) ∨
      ∃ k, k < l.length ∧ j = i + k ∧ (l.getD k defaultTreat).active = true ∧
        d = treatDistSq ax ay (l.getD k defaultTreat) := by
  induction l with
  | nil =>
    intro i best j d h
    simp only [Axol.findNearestAux] at h
    exact Or.inl h
  | cons t ts ih =>
    intro i best j d h
    simp only [Axol.findNearestAux] at h
    by_cases ht : t.active = true
    · rw [if_pos ht] at h
      cases best with
      | none =>
        dsimp only at h
        rcases ih (i + 1) (some (i, (t.x - ax) * (t.x - ax) + (t.y - ay) * (t.y - ay)))
            j d h with hl | ⟨k, hk, hjk, hka, hkd⟩
        · right
          refine ⟨0, by simp, ?_, ?_, ?_⟩
          · cases hl
            simp
          · cases hl
            simpa using ht
          · cases hl
            simp [treatDistSq]
        · right
          exact ⟨k + 1, by simpa using hk, by omega, by simpa [List.getD] using hka,
            by simpa [List.getD] using hkd⟩
      | some q =>
        rcases q with ⟨j0, bd⟩
        dsimp only at h
        by_cases hlt : (t.x - ax) * (t.x - ax) + (t.y - ay) * (t.y - ay) < bd
        · rw [if_pos hlt] at h
          rcases ih (i + 1) (some (i, (t.x - ax) * (t.x - ax) + (t.y - ay) * (t.y - ay)))
              j d h with hl | ⟨k, hk, hjk, hka, hkd⟩
          · right
            refine ⟨0, by simp, ?_, ?_, ?_⟩
            · cases hl
              simp
            · cases hl
              simpa using ht
            · cases hl
              simp [treatDistSq]
          · right
            exact ⟨k + 1, by simpa using hk, by omega, by simpa [List.getD] using hka,
              by simpa [List.getD] using hkd⟩
        · rw [if_neg hlt] at h
          rcases ih (i + 1) (some (j0, bd)) j d h with hl | ⟨k, hk, hjk, hka, hkd⟩
          · exact Or.inl hl
          · right
            exact ⟨k + 1, by simpa using hk, by omega, by simpa [List.getD] using hka,
              by simpa [List.getD] using hkd⟩
    · rw [if_neg ht] at h
      rcases ih (i + 1) best j d h with hl | ⟨k, hk, hjk, hka, hkd⟩
      · exact Or.inl hl
      · right
        exact ⟨k + 1, by simpa using hk, by omega, by simpa [List.getD] using hka,
          by simpa [List.getD] using hkd⟩

lemma Axol.findNearest_none_iff (a : Axol) (treats : List Treat) :
    a.findNearest treats = none ↔ ∀ t ∈ treats, t.active = false := by
  unfold Axol.findNearest
  rw [Option.map_eq_none']
  rw [Axol.findNearestAux_none_iff]
  simp

lemma Axol.findNearest_sound (a : Axol) (treats : List Treat) (j : ℕ)
    (h : a.findNearest treats = some j) :
    j < treats.length ∧ (treatAt treats j).active = true ∧
    ∀ k, k < treats.length → (treatAt treats k).active = true →
      treatDistSq a.x a.y (treatAt treats j) ≤ treatDistSq a.x a.y (treatAt treats k) := by
  unfold Axol.findNearest at h
  rcases Option.map_eq_some'.mp h with ⟨⟨j', d⟩, haux, hj⟩
  have hjj : j' = j := hj
  subst hjj
  rcases Axol.findNearestAux_active a.x a.y treats 0 none j' d haux with hl | hr
  · exact absurd hl (by simp)
  · rcases hr with ⟨k, hk, hjk, hka, hkd⟩
    have hj0 : j' = k := by omega
    subst hj0
    have hmin := (Axol.findNearestAux_min a.x a.y treats 0 none j' d haux).1
    refine ⟨hk, by simpa [treatAt] using hka, ?_⟩
    intro k2 hk2 hk2a
    have hmem : treats.getD k2 defaultTreat ∈ treats := by
      rw [List.getD_eq_getElem treats defaultTreat hk2]
      exact List.getElem_mem hk2
    have hd2 := hmin (treats.getD k2 defaultTreat) hmem (by simpa [treatAt] using hk2a)
    simp only [treatAt]
    rw [← hkd]
    exact hd2

/-! Preservation of the held target through the movement phases. -/

@[simp] lemma Axol.snapToSafePosition_currentTarget (a : Axol) :
    a.snapToSafePosition.currentTarget = a.currentTarget := by
  simp only [Axol.snapToSafePosition]
  split_ifs
  · rfl
  · cases h : (((List.range 18).flatMap fun k =>
      (List.range 16).map fun i =>
        ((a.x + Real.cos (((i : ℝ) / 16) * (2 * Real.pi)) * ((16 : ℝ) * ((k : ℝ) + 1))),
          (a.y + Real.sin (((i : ℝ) / 16) * (2 * Real.pi)) * ((16 : ℝ) * ((k : ℝ) + 1))))).find?
        fun c => ({ a with vx := 0, vy := 0 } : Axol).isSafePosition c.1 c.2) <;>
      simp [h]

@[simp] lemma Axol.embedPhase_currentTarget (a : Axol) :
    a.embedPhase.currentTarget = a.currentTarget := by
  simp only [Axol.embedPhase]
  split_ifs
  · exact Axol.snapToSafePosition_currentTarget a
  · rfl

@[simp] lemma Axol.computeDetourPoint_currentTarget (a : Axol) (treats : List Treat) :
    (a.computeDetourPoint treats).currentTarget = a.currentTarget := by
  simp only [Axol.computeDetourPoint]
  cases h : a.currentTarget <;> simp [h]
  split_ifs <;> simp

@[simp] lemma Axol.updateDetour_currentTarget (a : Axol) (treats : List Treat) (δ : ℝ) :
    (a.updateDetour treats δ).currentTarget = a.currentTarget := by
  simp only [Axol.updateDetour]
  split_ifs <;>
    · cases h : Axol.detourPoint _ <;> simp_all

@[simp] lemma Axol.nudgeAwayFromWall_currentTarget (a : Axol) (treats : List Treat)
    (inp : AxolTickInput) :
    (a.nudgeAwayFromWall treats inp).currentTarget = a.currentTarget := by
  simp only [Axol.nudgeAwayFromWall]
  cases h : a.currentTarget <;> simp [h]

@[simp] lemma Axol.updateStuck_currentTarget (a : Axol) (treats : List Treat) (δ : ℝ)
    (inp : AxolTickInput) :
    (a.updateStuck treats δ inp).currentTarget = a.currentTarget := by
  cases h : a.currentTarget with
  | none =>
    simp only [Axol.updateStuck, h]
    split_ifs <;> simp [h]
  | some i =>
    simp only [Axol.updateStuck, h]
    split_ifs <;> simp [h]

/-- findNearest reads only the position of the searcher. -/
lemma Axol.findNearest_congr (a b : Axol) (treats : List Treat)
    (hx : a.x = b.x) (hy : a.y = b.y) :
    a.findNearest treats = b.findNearest treats := by
  simp only [Axol.findNearest, hx, hy]

/-- The target-maintenance prefix of Axol.update (LOS-aware variant):
invalidation followed by selection. -/
noncomputable def Axol.targetPhase (a : Axol) (treats : List Treat) : Axol :=
  (a.dropPhase treats).selectPhase treats

/-- After invalidation and selection, any held target refers to an
active treat. -/
lemma Axol.targetPhase_active (a : Axol) (treats : List Treat) (j : ℕ)
    (h : (a.targetPhase treats).currentTarget = some j) :
    (treatAt treats j).active = true := by
  cases hct : a.currentTarget with
  | none =>
    have hdrop : a.dropPhase treats = a := by
      simp [Axol.dropPhase, hct]
    simp only [Axol.targetPhase, hdrop, Axol.selectPhase, hct] at h
    exact (Axol.findNearest_sound a treats j h).2.1
  | some k =>
    by_cases hka : (treatAt treats k).active = true
    · have hdrop : a.dropPhase treats = a := by
        simp [Axol.dropPhase, hct, hka]
      simp only [Axol.targetPhase, hdrop, Axol.selectPhase, hct] at h
      rw [Option.some_inj] at h
      rw [← h]
      exact hka
    · have hfa : (treatAt treats k).active = false := by
        cases hb : (treatAt treats k).active
        · rfl
        · exact absurd hb hka
      have hdrop : a.dropPhase treats =
          { a with currentTarget := none, detourPoint := none, detourTimer := 0 } := by
        simp [Axol.dropPhase, hct, hfa]
      simp only [Axol.targetPhase, hdrop, Axol.selectPhase] at h
      exact (Axol.findNearest_sound _ treats j h).2.1

/-- Every index resolves to an inactive treat when every treat in the
list is inactive (out-of-range indices resolve to the inactive default). -/
lemma treatAt_inactive_of_all (treats : List Treat)
    (hAll : ∀ t ∈ treats, t.active = false) (k : ℕ) :
    (treatAt treats k).active = false := by
  by_cases hk : k < treats.length
  · have : treatAt treats k = treats[k] := by
      simp [treatAt, List.getD_eq_getElem, hk]
    rw [this]
    exact hAll _ (List.getElem_mem hk)
  · have : treatAt treats k = defaultTreat := by
      rw [treatAt, List.getD, List.get?_eq_none.mpr (by omega)]
      rfl
    rw [this]
    rfl

/-- When every treat is inactive, invalidation-plus-selection ends with
no held target. -/
lemma Axol.targetPhase_none (a : Axol) (treats : List Treat)
    (hAll : ∀ t ∈ treats, t.active = false) :
    (a.targetPhase treats).currentTarget = none := by
  have hfn : ∀ b : Axol, Axol.findNearest b treats = none := fun b =>
    (Axol.findNearest_none_iff b treats).mpr hAll
  cases hct : a.currentTarget with
  | none =>
    have hdrop : a.dropPhase treats = a := by simp [Axol.dropPhase, hct]
    simp [Axol.targetPhase, hdrop, Axol.selectPhase, hct, hfn]
  | some k =>
    have hdrop : a.dropPhase treats =
        { a with currentTarget := none, detourPoint := none, detourTimer := 0 } := by
      simp [Axol.dropPhase, hct, treatAt_inactive_of_all treats hAll k]
    simp [Axol.targetPhase, hdrop, Axol.selectPhase, hfn]

/-- The tick its held treat goes inactive, invalidation-plus-selection
re-targets the nearest active treat (as found from the current
position). -/
lemma Axol.targetPhase_reselect (a : Axol) (treats : List Treat) (i : ℕ)
    (hT : a.currentTarget = some i) (hIn : (treatAt treats i).active = false) :
    (a.targetPhase treats).currentTarget = a.findNearest treats := by
  have hdrop : a.dropPhase treats =
      { a with currentTarget := none, detourPoint := none, detourTimer := 0 } := by
    simp [Axol.dropPhase, hT, hIn]
  have hcong : Axol.findNearest
      { a with currentTarget := none, detourPoint := none, detourTimer := 0 } treats =
      a.findNearest treats :=
    Axol.findNearest_congr _ a treats rfl rfl
  simp [Axol.targetPhase, hdrop, Axol.selectPhase, hcong]

/-- When the held treat stays active, invalidation-plus-selection keeps
the held target. -/
lemma Axol.targetPhase_keep (a : Axol) (treats : List Treat) (i : ℕ)
    (hT : a.currentTarget = some i) (hAc : (treatAt treats i).active = true) :
    (a.targetPhase treats).currentTarget = some i := by
  have hdrop : a.dropPhase treats = a := by simp [Axol.dropPhase, hT, hAc]
  simp [Axol.targetPhase, hdrop, Axol.selectPhase, hT]

/-- On a live tick, the LOS-aware update's final held target is exactly
the result of the invalidation-plus-selection prefix: none of the
steering, detour or stuck-recovery code touches it. -/
lemma Axol.update_currentTarget (a : Axol) (δ : ℝ) (treats : List Treat)
    (inp : AxolTickInput) (ha : a.alive = true) :
    (Axol.update a δ treats inp).currentTarget =
      (a.embedPhase.targetPhase treats).currentTarget := by
  have hal : ¬ (a.alive = false) := by simp [ha]
  simp only [Axol.update, Axol.targetPhase]
  rw [if_neg hal]
  cases hct : ((Axol.dropPhase a.embedPhase treats).selectPhase treats).currentTarget with
  | none =>
    dsimp only
  | some i =>
    dsimp only
    simp only [Axol.updateStuck_currentTarget]
    split_ifs with hlos
    · simp [hct]
    · cases hfn : Axol.findNearestWithLOS
          ((Axol.dropPhase a.embedPhase treats).selectPhase treats) treats with
      | some j => simp [hct]
      | none => simp [hct]

/-- On a live tick, the simple update's final held target also equals the
result of the invalidation-plus-selection prefix (its inline drop/select
steps differ from the LOS-aware variant's only in detour fields, which
target selection never reads). -/
lemma Axol.simpleUpdate_currentTarget (a : Axol) (δ : ℝ) (treats : List Treat)
    (inp : AxolTickInput) (ha : a.alive = true) :
    (Axol.simpleUpdate a δ treats inp).currentTarget =
      (a.embedPhase.targetPhase treats).currentTarget := by
  have hal : ¬ (a.alive = false) := by simp [ha]
  simp only [Axol.simpleUpdate]
  rw [if_neg hal]
  cases hct : a.currentTarget with
  | none =>
    have hct1 : (a.embedPhase).currentTarget = none := by simp [hct]
    have hdrop : (a.embedPhase).dropPhase treats = a.embedPhase := by
      simp [Axol.dropPhase, hct]
    have hR : (Axol.targetPhase a.embedPhase treats).currentTarget =
        Axol.findNearest a.embedPhase treats := by
      simp [Axol.targetPhase, hdrop, Axol.selectPhase, hct]
    rw [hR]
    cases hfn : Axol.findNearest a.embedPhase treats with
    | none => simp [hct, hfn]
    | some i => simp [hct, hfn]
  | some k =>
    have hct1 : (a.embedPhase).currentTarget = some k := by simp [hct]
    by_cases hka : (treatAt treats k).active = true
    · have hR := Axol.targetPhase_keep (a.embedPhase) treats k hct1 hka
      rw [hR]
      simp [hct, hka]
    · have hfa : (treatAt treats k).active = false := by
        cases hb : (treatAt treats k).active
        · rfl
        · exact absurd hb hka
      have hR := Axol.targetPhase_reselect (a.embedPhase) treats k hct1 hfa
      rw [hR]
      have hcong : Axol.findNearest
          { a.embedPhase with currentTarget := none } treats =
          Axol.findNearest a.embedPhase treats :=
        Axol.findNearest_congr _ _ treats rfl rfl
      cases hfn : Axol.findNearest a.embedPhase treats with
      | none => simp [hct, hfa, hcong, hfn]
      | some i => simp [hct, hfa, hcong, hfn]

/-- When every treat is inactive, a live LOS-aware tick ends with no
target and zero commanded velocity. -/
lemma Axol.update_halt (a : Axol) (δ : ℝ) (treats : List Treat) (inp : AxolTickInput)
    (ha : a.alive = true) (hAll : ∀ t ∈ treats, t.active = false) :
    (Axol.update a δ treats inp).currentTarget = none ∧
      (Axol.update a δ treats inp).vx = 0 ∧ (Axol.update a δ treats inp).vy = 0 := by
  have hal : ¬ (a.alive = false) := by simp [ha]
  have hnone : ((Axol.dropPhase a.embedPhase treats).selectPhase treats).currentTarget = none :=
    Axol.targetPhase_none (a.embedPhase) treats hAll
  refine ⟨?_, ?_, ?_⟩ <;>
  · simp only [Axol.update]
    rw [if_neg hal, hnone]

/-- When every treat is inactive, a live simple tick ends with no target
and zero commanded velocity. -/
lemma Axol.simpleUpdate_halt (a : Axol) (δ : ℝ) (treats : List Treat) (inp : AxolTickInput)
    (ha : a.alive = true) (hAll : ∀ t ∈ treats, t.active = false) :
    (Axol.simpleUpdate a δ treats inp).currentTarget = none ∧
      (Axol.simpleUpdate a δ treats inp).vx = 0 ∧
      (Axol.simpleUpdate a δ treats inp).vy = 0 := by
  have hal : ¬ (a.alive = false) := by simp [ha]
  have hfn : ∀ b : Axol, Axol.findNearest b treats = none := fun b =>
    (Axol.findNearest_none_iff b treats).mpr hAll
  refine ⟨?_, ?_, ?_⟩ <;>
  · simp only [Axol.simpleUpdate]
    rw [if_neg hal]
    cases hct : a.currentTarget with
    | none => simp [hct, hfn]
    | some k => simp [hct, treatAt_inactive_of_all treats hAll k, hfn]

/-- Helper holding treat index 0 while that treat is inactive. -/
def staleAxol : Axol := { baseAxol with currentTarget := some 0 }

/-- Treat list whose head (the held treat) is inactive while another
treat remains active. -/
noncomputable def staleTreats : List Treat :=
  [{ x := 50, y := 0, active := false }, { x := 7, y := 3, active := true }]

/-- C7: On every live helper tick, in both update variants, a held
target whose treat has become inactive is dropped before any use and,
that same tick, the target is re-selected as the nearest active treat by
squared distance from the helper's position (findNearest); when no
active treat exists the tick ends with no target and zero commanded
velocity; and no tick ever ends holding a reference to an inactive
treat. -/
theorem helper_target_invalidation_spec
    (a : Axol) (δ : ℝ) (treats : List Treat) (inp : AxolTickInput)
    (ha : a.alive = true) (i : ℕ)
    (hT : a.currentTarget = some i) (hIn : (treatAt treats i).active = false)
    (b : Axol) (δ2 : ℝ) (treats2 : List Treat) (inp2 : AxolTickInput)
    (hb : b.alive = true) (hNone : ∀ t ∈ treats2, t.active = false)
    (c : Axol) (δ3 : ℝ) (treats3 : List Treat) (inp3 : AxolTickInput)
    (hc : c.alive = true)
    (d : Axol) (treats4 : List Treat) (j2 : ℕ)
    (hd4 : d.findNearest treats4 = some j2) :
    ((Axol.update a δ treats inp).currentTarget = Axol.findNearest a.embedPhase treats ∧
      (Axol.simpleUpdate a δ treats inp).currentTarget =
        Axol.findNearest a.embedPhase treats) ∧
    ((Axol.update b δ2 treats2 inp2).currentTarget = none ∧
      (Axol.update b δ2 treats2 inp2).vx = 0 ∧ (Axol.update b δ2 treats2 inp2).vy = 0 ∧
      (Axol.simpleUpdate b δ2 treats2 inp2).currentTarget = none ∧
      (Axol.simpleUpdate b δ2 treats2 inp2).vx = 0 ∧
      (Axol.simpleUpdate b δ2 treats2 inp2).vy = 0) ∧
    ((∀ j, (Axol.update c δ3 treats3 inp3).currentTarget = some j →
        (treatAt treats3 j).active = true) ∧
      (∀ j, (Axol.simpleUpdate c δ3 treats3 inp3).currentTarget = some j →
        (treatAt treats3 j).active = true)) ∧
    (j2 < treats4.length ∧ (treatAt treats4 j2).active = true ∧
      ∀ k, k < treats4.length → (treatAt treats4 k).active = true →
        treatDistSq d.x d.y (treatAt treats4 j2) ≤ treatDistSq d.x d.y (treatAt treats4 k)) := by
  have hT1 : (a.embedPhase).currentTarget = some i := by simp [hT]
  refine ⟨⟨?_, ?_⟩, ?_, ⟨?_, ?_⟩, Axol.findNearest_sound d treats4 j2 hd4⟩
  · rw [Axol.update_currentTarget a δ treats inp ha,
      Axol.targetPhase_reselect (a.embedPhase) treats i hT1 hIn]
  · rw [Axol.simpleUpdate_currentTarget a δ treats inp ha,
      Axol.targetPhase_reselect (a.embedPhase) treats i hT1 hIn]
  · obtain ⟨h1, h2, h3⟩ := Axol.update_halt b δ2 treats2 inp2 hb hNone
    obtain ⟨h4, h5, h6⟩ := Axol.simpleUpdate_halt b δ2 treats2 inp2 hb hNone
    exact ⟨h1, h2, h3, h4, h5, h6⟩
  · intro j hj
    rw [Axol.update_currentTarget c δ3 treats3 inp3 hc] at hj
    exact Axol.targetPhase_active _ treats3 j hj
  · intro j hj
    rw [Axol.simpleUpdate_currentTarget c δ3 treats3 inp3 hc] at hj
    exact Axol.targetPhase_active _ treats3 j hj

/-- Witness: the target-invalidation theorem instantiated at a helper
holding the inactive head of staleTreats, an empty treat list for the
halt scenario, and the single active treat of detourTreats for the
nearest-selection scenario. -/
theorem helper_target_invalidation_spec_witness :
    staleAxol.alive = true ∧
    staleAxol.currentTarget = some 0 ∧
    (treatAt staleTreats 0).active = false ∧
    baseAxol.alive = true ∧
    (∀ t ∈ ([] : List Treat), t.active = false) ∧
    Axol.findNearest baseAxol detourTreats = some 0 ∧
    (Axol.update staleAxol 16 staleTreats quietAxolInput).currentTarget =
      Axol.findNearest staleAxol.embedPhase staleTreats := by
  have h1 : staleAxol.alive = true := rfl
  have h2 : staleAxol.currentTarget = some 0 := rfl
  have h3 : (treatAt staleTreats 0).active = false := rfl
  have h4 : baseAxol.alive = true := rfl
  have h5 : ∀ t ∈ ([] : List Treat), t.active = false := by simp
  have h6 : Axol.findNearest baseAxol detourTreats = some 0 := by
    simp [Axol.findNearest, Axol.findNearestAux, detourTreats]
  have hmain := helper_target_invalidation_spec staleAxol 16 staleTreats quietAxolInput
    h1 0 h2 h3 baseAxol 16 [] quietAxolInput h4 h5
    baseAxol 16 [] quietAxolInput h4 baseAxol detourTreats 0 h6
  exact ⟨h1, h2, h3, h4, h5, h6, hmain.1.1⟩
